import Mathlib

/-!
# GameRagKit Unreal sample: response protocol handling

A shallow embedding of `samples/unreal/NpcDialogueComponent.{h,cpp}` and
`samples/unreal/AskNpcLibrary.{h,cpp}`.

* `FString` is a list of characters; the `FString` members the sample calls
  (`StartsWith`, `RightChop`, `TrimStartAndEnd`, `ParseIntoArrayLines`, `operator==`)
  are written out with the engine's documented behaviour.
* The JSON DOM (`FJsonValue`, `FJsonObject`) is a data type; the JSON text reader and
  writer and the string/number conversions of the engine are fields of `Engine`.
* Delegate broadcasts, `UE_LOG` lines and dispatched HTTP requests are recorded, in
  program order, as a list of `Effect`s.
-/

namespace GameRagKit

/-! ## FString -/

/-- An engine string: the sequence of its characters. -/
abbrev FString := List Char

/-- The `TEXT("...")` literal. -/
def TEXT (s : String) : FString := s.toList

/-- Engine `FChar::IsWhitespace` on the six ASCII white-space characters of the C locale. -/
def FChar.IsWhitespace (c : Char) : Bool :=
  c = ' ' || c = '\t' || c = '\n' || c = Char.ofNat 11 || c = Char.ofNat 12 || c = '\r'

/-- Engine `FChar::ToLower`: ASCII letters are folded, every other character is kept. -/
def FChar.ToLower (c : Char) : Char :=
  if 'A' ≤ c ∧ c ≤ 'Z' then Char.ofNat (c.toNat + 32) else c

/-- Engine `FCString::Strnicmp(Str, Pre, Strlen(Pre)) == 0`: the first `Strlen(Pre)` characters of
`Str` are those of `Pre`, ignoring ASCII case. -/
def FCString.StrnicmpEq : FString → FString → Bool
  | _, [] => true
  | [], _ :: _ => false
  | c :: s, d :: p => FChar.ToLower c == FChar.ToLower d && FCString.StrnicmpEq s p

/-- Engine `FString::StartsWith(InPrefix)` with its default `ESearchCase::IgnoreCase`; an empty
prefix never matches. -/
def FString.StartsWith (s InPrefix : FString) : Bool :=
  !InPrefix.isEmpty && FCString.StrnicmpEq s InPrefix

/-- Engine `FString::operator==`: same length and the same characters ignoring ASCII case. -/
def FString.Equals (s t : FString) : Bool :=
  s.map FChar.ToLower == t.map FChar.ToLower

/-- Engine `FString::RightChop(Count)`: the string without its first `Count` characters. -/
def FString.RightChop (s : FString) (Count : Nat) : FString := s.drop Count

/-- Engine `FString::TrimStart`. -/
def FString.TrimStart (s : FString) : FString := s.dropWhile FChar.IsWhitespace

/-- Engine `FString::TrimEnd`. -/
def FString.TrimEnd (s : FString) : FString := (s.reverse.dropWhile FChar.IsWhitespace).reverse

/-- Engine `FString::TrimStartAndEnd`: white space is removed at the end, then at the start. -/
def FString.TrimStartAndEnd (s : FString) : FString := FString.TrimStart (FString.TrimEnd s)

/-- Engine `FString::IsEmpty`. -/
def FString.IsEmpty (s : FString) : Bool := s.isEmpty

/-- One finished substring of `ParseIntoArray` with `InCullEmpty = true`: it is added to the
output array only when it is not empty. -/
def FString.CullEmpty (Substring : FString) : List FString :=
  if Substring.isEmpty then [] else [Substring]

/-- The scan of `FString::ParseIntoArray` over the delimiters `"\r\n"`, `"\r"`, `"\n"` (tried in
that order at every position), culling empty substrings. The first argument is the text still
to scan, the second the substring collected since the last delimiter. -/
def FString.ParseIntoArrayLinesFrom : FString → FString → List FString
  | [], Sub => FString.CullEmpty Sub
  | c :: rest, Sub =>
    if c = '\r' then
      match rest with
      | d :: rest2 =>
        if d = '\n' then FString.CullEmpty Sub ++ FString.ParseIntoArrayLinesFrom rest2 []
        else FString.CullEmpty Sub ++ FString.ParseIntoArrayLinesFrom (d :: rest2) []
      | [] => FString.CullEmpty Sub
    else if c = '\n' then FString.CullEmpty Sub ++ FString.ParseIntoArrayLinesFrom rest []
    else FString.ParseIntoArrayLinesFrom rest (Sub ++ [c])

/-- Engine `FString::ParseIntoArrayLines(OutArray)` with its default `InCullEmpty = true`. -/
def FString.ParseIntoArrayLines (s : FString) : List FString :=
  FString.ParseIntoArrayLinesFrom s []

/-- Decimal rendering of an integer, as `%d` prints it. -/
def FString.FromInt (n : Int) : FString :=
  if n < 0 then '-' :: Nat.toDigits 10 n.natAbs else Nat.toDigits 10 n.natAbs

/-- Truncation of a number to `int32`, the cast `(int32)` applied to a `double`: the fraction
is dropped towards zero. A value outside the `int32` range (undefined in C++) is wrapped. -/
def TruncToInt32 (v : Rat) : Int :=
  (Int.tdiv v.num v.den + 2 ^ 31) % 2 ^ 32 - 2 ^ 31

/-! ## JSON DOM -/

/-- A JSON value (`FJsonValue` and its subclasses). A number holds the value of a `double`. -/
inductive FJsonValue where
  | JsonNull
  | JsonString (Value : FString)
  | JsonNumber (Value : Rat)
  | JsonBoolean (Value : Bool)
  | JsonArray (Value : List FJsonValue)
  | JsonObject (Value : List (FString × FJsonValue))

/-- A JSON object (`FJsonObject`): its `Values` map, as the list of its entries. -/
structure FJsonObject where
  Values : List (FString × FJsonValue)

/-- The engine services the sample calls and whose code is not part of the repository. -/
structure Engine where
  /-- Engine `FJsonSerializer::Deserialize(Reader, JsonObject) && JsonObject.IsValid()` for a
  reader over the given text: the decoded root object, or nothing. -/
  Deserialize : FString → Option FJsonObject
  /-- Engine `FJsonSerializer::Serialize(JsonObject, Writer)`: the text written. -/
  Serialize : FJsonObject → FString
  /-- Engine `FString::SanitizeFloat`, the text of a number read as a string. -/
  SanitizeFloat : Rat → FString
  /-- Engine `FCString::Atod` of a string for which `FString::IsNumeric` holds, else nothing. -/
  Atod : FString → Option Rat
  /-- Engine `FString::ToBool`. -/
  ToBool : FString → Bool
  /-- The cast `(float)` of a `double`. -/
  NarrowToFloat : Rat → Rat

/-- Engine `FJsonValue::AsString`: a string is itself, a number and a boolean are printed, any other
value gives the empty string. -/
def FJsonValue.AsString (E : Engine) : FJsonValue → FString
  | .JsonString v => v
  | .JsonNumber v => E.SanitizeFloat v
  | .JsonBoolean v => if v then TEXT "true" else TEXT "false"
  | _ => []

/-- Engine `FJsonValue::AsNumber`: a value that is no number, numeric string or boolean gives 0. -/
def FJsonValue.AsNumber (E : Engine) : FJsonValue → Rat
  | .JsonNumber v => v
  | .JsonString v => (E.Atod v).getD 0
  | .JsonBoolean v => if v then 1 else 0
  | _ => 0

/-- Engine `FJsonValue::AsBool`: any value that is no boolean, number or string gives `false`. -/
def FJsonValue.AsBool (E : Engine) : FJsonValue → Bool
  | .JsonBoolean v => v
  | .JsonNumber v => decide (v ≠ 0)
  | .JsonString v => E.ToBool v
  | _ => false

/-- Engine `FJsonValue::TryGetArray`: only an array value succeeds. -/
def FJsonValue.TryGetArray : FJsonValue → Option (List FJsonValue)
  | .JsonArray v => some v
  | _ => none

/-- Engine `FJsonObject::TryGetField`: the entry whose key equals the name, keys of the `Values`
map being compared with `FString::operator==`. -/
def FJsonObject.TryGetField (o : FJsonObject) (FieldName : FString) : Option FJsonValue :=
  (o.Values.find? (fun kv => FString.Equals kv.1 FieldName)).map (fun kv => kv.2)

/-- Engine `FJsonObject::GetField<EJson::None>`: a missing field reads as a null value. -/
def FJsonObject.GetField (o : FJsonObject) (FieldName : FString) : FJsonValue :=
  (o.TryGetField FieldName).getD FJsonValue.JsonNull

/-- Engine `FJsonObject::GetStringField`. -/
def FJsonObject.GetStringField (E : Engine) (o : FJsonObject) (FieldName : FString) : FString :=
  (o.GetField FieldName).AsString E

/-- Engine `FJsonObject::GetBoolField`. -/
def FJsonObject.GetBoolField (E : Engine) (o : FJsonObject) (FieldName : FString) : Bool :=
  (o.GetField FieldName).AsBool E

/-- Engine `FJsonObject::GetNumberField`. -/
def FJsonObject.GetNumberField (E : Engine) (o : FJsonObject) (FieldName : FString) : Rat :=
  (o.GetField FieldName).AsNumber E

/-- Engine `FJsonObject::TryGetArrayField`. -/
def FJsonObject.TryGetArrayField (o : FJsonObject) (FieldName : FString) :
    Option (List FJsonValue) :=
  (o.TryGetField FieldName).bind FJsonValue.TryGetArray

/-- Engine `FJsonObject::SetField`: the entry is added, replacing an entry with an equal key. -/
def FJsonObject.SetField (o : FJsonObject) (FieldName : FString) (Value : FJsonValue) :
    FJsonObject :=
  ⟨o.Values.filter (fun kv => !FString.Equals kv.1 FieldName) ++ [(FieldName, Value)]⟩

/-- Engine `FJsonObject::SetStringField`. -/
def FJsonObject.SetStringField (o : FJsonObject) (FieldName Value : FString) : FJsonObject :=
  o.SetField FieldName (FJsonValue.JsonString Value)

/-- Engine `FJsonObject::SetNumberField`. -/
def FJsonObject.SetNumberField (o : FJsonObject) (FieldName : FString) (Value : Rat) :
    FJsonObject :=
  o.SetField FieldName (FJsonValue.JsonNumber Value)

/-! ## HTTP -/

/-- The member function bound to `OnProcessRequestComplete`. -/
inductive ECompleteHandler where
  | Unbound
  | OnAskResponseReceived
  | OnStreamResponseReceived
  | OnHealthCheckReceived
  deriving DecidableEq, Repr

/-- An HTTP request as the sample configures it. -/
structure FHttpRequest where
  Verb : FString
  URL : FString
  Headers : List (FString × FString)
  Content : FString
  OnProcessRequestComplete : ECompleteHandler
  deriving DecidableEq, Repr

/-- Engine `FHttpModule::Get().CreateRequest()`: a request with nothing set. -/
def FHttpRequest.CreateRequest : FHttpRequest :=
  { Verb := [], URL := [], Headers := [], Content := [],
    OnProcessRequestComplete := ECompleteHandler.Unbound }

/-- Engine `IHttpRequest::SetHeader`: the header is added, replacing one of the same name. -/
def FHttpRequest.SetHeader (r : FHttpRequest) (HeaderName HeaderValue : FString) : FHttpRequest :=
  { r with Headers :=
      r.Headers.filter (fun h => !FString.Equals h.1 HeaderName) ++ [(HeaderName, HeaderValue)] }

/-- An HTTP response: what `GetResponseCode` and `GetContentAsString` return. -/
structure FHttpResponse where
  ResponseCode : Int
  ContentAsString : FString
  deriving DecidableEq, Repr

/-! ## NpcDialogueComponent.h -/

/-- The struct `FNpcResponse`. -/
structure FNpcResponse where
  Answer : FString
  Sources : List FString
  Scores : List Rat
  FromCloud : Bool
  ResponseTimeMs : Int
  deriving DecidableEq, Repr

/-- A default-constructed `FNpcResponse` (`FNpcResponse NpcResponse;`). The string and the two
arrays are empty; `FromCloud` and `ResponseTimeMs` have no initialiser in the struct, so they
hold whatever the storage held, given here as arguments. -/
def FNpcResponse.Construct (FromCloud : Bool) (ResponseTimeMs : Int) : FNpcResponse :=
  { Answer := [], Sources := [], Scores := [], FromCloud := FromCloud,
    ResponseTimeMs := ResponseTimeMs }

/-- Verbosity of a `UE_LOG` line. -/
inductive ELogVerbosity where
  | Log
  | Error
  deriving DecidableEq, Repr

/-- What the component does to the outside, one entry per action, in program order. -/
inductive Effect where
  /-- The call `Request->ProcessRequest()`. -/
  | ProcessRequest (Request : FHttpRequest)
  /-- The call `UE_LOG(LogTemp, Verbosity, ...)` with the formatted message. -/
  | Log (Verbosity : ELogVerbosity) (Message : FString)
  /-- The call `OnResponseReceived.Broadcast(Response)`. -/
  | OnResponseReceived (Response : FNpcResponse)
  /-- The call `OnTextChunkReceived.Broadcast(TextChunk)`. -/
  | OnTextChunkReceived (TextChunk : FString)
  /-- The call `OnError.Broadcast(ErrorMessage)`. -/
  | OnError (ErrorMessage : FString)
  deriving DecidableEq, Repr

/-- The configuration properties of `UNpcDialogueComponent`, with the defaults of the header. -/
structure UNpcDialogueComponent where
  ServerUrl : FString := TEXT "http://localhost:5280"
  ApiKey : FString := []
  bEnableLogging : Bool := true
  deriving DecidableEq, Repr

/-! ## NpcDialogueComponent.cpp -/

namespace UNpcDialogueComponent

/-- The JSON body both ask calls build: `npc`, `question`, `importance`. -/
def BuildBody (NpcId Question : FString) (Importance : Rat) : FJsonObject :=
  let JsonObject : FJsonObject := ⟨[]⟩
  let JsonObject := JsonObject.SetStringField (TEXT "npc") NpcId
  let JsonObject := JsonObject.SetStringField (TEXT "question") Question
  JsonObject.SetNumberField (TEXT "importance") Importance

/-- Source function `UNpcDialogueComponent::AskNpc`. -/
def AskNpc (E : Engine) (self : UNpcDialogueComponent) (NpcId Question : FString)
    (Importance : Rat) : List Effect :=
  let Request := FHttpRequest.CreateRequest
  let Request := { Request with Verb := TEXT "POST" }
  let Request := { Request with URL := self.ServerUrl ++ TEXT "/ask" }
  let Request := Request.SetHeader (TEXT "Content-Type") (TEXT "application/json")
  let Request :=
    if !self.ApiKey.IsEmpty then Request.SetHeader (TEXT "X-API-Key") self.ApiKey else Request
  let JsonString := E.Serialize (BuildBody NpcId Question Importance)
  let Request := { Request with Content := JsonString }
  let Request :=
    { Request with OnProcessRequestComplete := ECompleteHandler.OnAskResponseReceived }
  [Effect.ProcessRequest Request] ++
    (if self.bEnableLogging then
      [Effect.Log ELogVerbosity.Log (TEXT "[GameRagKit] Asking " ++ NpcId ++ TEXT ": " ++ Question)]
    else [])

/-- Source function `UNpcDialogueComponent::AskNpcStreaming`. -/
def AskNpcStreaming (E : Engine) (self : UNpcDialogueComponent) (NpcId Question : FString)
    (Importance : Rat) : List Effect :=
  let Request := FHttpRequest.CreateRequest
  let Request := { Request with Verb := TEXT "POST" }
  let Request := { Request with URL := self.ServerUrl ++ TEXT "/ask/stream" }
  let Request := Request.SetHeader (TEXT "Content-Type") (TEXT "application/json")
  let Request :=
    if !self.ApiKey.IsEmpty then Request.SetHeader (TEXT "X-API-Key") self.ApiKey else Request
  let JsonString := E.Serialize (BuildBody NpcId Question Importance)
  let Request := { Request with Content := JsonString }
  let Request :=
    { Request with OnProcessRequestComplete := ECompleteHandler.OnStreamResponseReceived }
  [Effect.ProcessRequest Request] ++
    (if self.bEnableLogging then
      [Effect.Log ELogVerbosity.Log
        (TEXT "[GameRagKit] Asking " ++ NpcId ++ TEXT " (streaming): " ++ Question)]
    else [])

/-- Source function `UNpcDialogueComponent::CheckServerHealth`. -/
def CheckServerHealth (self : UNpcDialogueComponent) : List Effect :=
  let Request := FHttpRequest.CreateRequest
  let Request := { Request with Verb := TEXT "GET" }
  let Request := { Request with URL := self.ServerUrl ++ TEXT "/health" }
  let Request :=
    { Request with OnProcessRequestComplete := ECompleteHandler.OnHealthCheckReceived }
  [Effect.ProcessRequest Request]

/-- Source function `UNpcDialogueComponent::ParseNpcResponse`: `OutResponse` is updated in place,
so it is an argument and the result. -/
def ParseNpcResponse (E : Engine) (JsonString : FString) (OutResponse : FNpcResponse) :
    FNpcResponse :=
  match E.Deserialize JsonString with
  | some JsonObject =>
    let OutResponse := { OutResponse with Answer := JsonObject.GetStringField E (TEXT "answer") }
    let OutResponse :=
      { OutResponse with FromCloud := JsonObject.GetBoolField E (TEXT "fromCloud") }
    let OutResponse :=
      { OutResponse with
        ResponseTimeMs := TruncToInt32 (JsonObject.GetNumberField E (TEXT "responseTimeMs")) }
    let OutResponse :=
      match JsonObject.TryGetArrayField (TEXT "sources") with
      | some SourcesArray =>
        SourcesArray.foldl
          (fun (Out : FNpcResponse) (Value : FJsonValue) =>
            { Out with Sources := Out.Sources ++ [Value.AsString E] })
          OutResponse
      | none => OutResponse
    match JsonObject.TryGetArrayField (TEXT "scores") with
    | some ScoresArray =>
      ScoresArray.foldl
        (fun (Out : FNpcResponse) (Value : FJsonValue) =>
          { Out with Scores := Out.Scores ++ [E.NarrowToFloat (Value.AsNumber E)] })
        OutResponse
    | none => OutResponse
  | none => OutResponse

/-- The body of the `for` loop of `ParseStreamingResponse`: what one line makes the component
do. -/
def ParseStreamingLine (E : Engine) (self : UNpcDialogueComponent) (Line : FString) :
    List Effect :=
  if Line.StartsWith (TEXT "data:") then
    let JsonData := (Line.RightChop 5).TrimStartAndEnd
    if !JsonData.IsEmpty then
      match E.Deserialize JsonData with
      | some JsonObject =>
        let EventType := JsonObject.GetStringField E (TEXT "type")
        if EventType.Equals (TEXT "chunk") then
          let Text := JsonObject.GetStringField E (TEXT "text")
          [Effect.OnTextChunkReceived Text]
        else if EventType.Equals (TEXT "end") then
          if self.bEnableLogging then
            [Effect.Log ELogVerbosity.Log (TEXT "[GameRagKit] Streaming complete")]
          else []
        else []
      | none => []
    else []
  else []

/-- Source function `UNpcDialogueComponent::ParseStreamingResponse`: the loop over the lines of
the body, in order. -/
def ParseStreamingResponse (E : Engine) (self : UNpcDialogueComponent) (ResponseBody : FString) :
    List Effect :=
  let Lines := ResponseBody.ParseIntoArrayLines
  Lines.foldl (fun Done Line => Done ++ ParseStreamingLine E self Line) []

/-- Source function `UNpcDialogueComponent::OnAskResponseReceived`. `Response` is nothing when
the response pointer is not valid; the unused `Request` argument is left out. The last two
arguments are the values the uninitialised members of the local `NpcResponse` hold. The guard
`!bWasSuccessful || !Response.IsValid()` of the source is the last branch of the match. -/
def OnAskResponseReceived (E : Engine) (self : UNpcDialogueComponent)
    (Response : Option FHttpResponse) (bWasSuccessful : Bool)
    (FromCloud0 : Bool) (ResponseTimeMs0 : Int) : List Effect :=
  match bWasSuccessful, Response with
  | true, some Response =>
    if Response.ResponseCode ≠ 200 then
      let Error := TEXT "Request failed: HTTP " ++ FString.FromInt Response.ResponseCode
      [Effect.Log ELogVerbosity.Error (TEXT "[GameRagKit] " ++ Error), Effect.OnError Error]
    else
      let NpcResponse := FNpcResponse.Construct FromCloud0 ResponseTimeMs0
      let NpcResponse := ParseNpcResponse E Response.ContentAsString NpcResponse
      (if self.bEnableLogging then
        [Effect.Log ELogVerbosity.Log (TEXT "[GameRagKit] Response: " ++ NpcResponse.Answer),
         Effect.Log ELogVerbosity.Log
          (TEXT "[GameRagKit] From Cloud: "
            ++ (if NpcResponse.FromCloud then TEXT "Yes" else TEXT "No")
            ++ TEXT ", Time: " ++ FString.FromInt NpcResponse.ResponseTimeMs ++ TEXT "ms")]
      else []) ++ [Effect.OnResponseReceived NpcResponse]
  | _, _ =>
    let Error := TEXT "Request failed: Connection error"
    [Effect.Log ELogVerbosity.Error (TEXT "[GameRagKit] " ++ Error), Effect.OnError Error]

/-- Source function `UNpcDialogueComponent::OnStreamResponseReceived`; the unused `Request`
argument is left out. The guard `!bWasSuccessful || !Response.IsValid()` of the source is the
last branch of the match. -/
def OnStreamResponseReceived (E : Engine) (self : UNpcDialogueComponent)
    (Response : Option FHttpResponse) (bWasSuccessful : Bool) : List Effect :=
  match bWasSuccessful, Response with
  | true, some Response => ParseStreamingResponse E self Response.ContentAsString
  | _, _ => [Effect.OnError (TEXT "Streaming request failed")]

/-- Source function `UNpcDialogueComponent::OnHealthCheckReceived`; the unused `Request`
argument is left out. -/
def OnHealthCheckReceived (self : UNpcDialogueComponent) (Response : Option FHttpResponse)
    (bWasSuccessful : Bool) : List Effect :=
  let bHealthy :=
    bWasSuccessful && (match Response with
      | some Response => decide (Response.ResponseCode = 200)
      | none => false)
  if self.bEnableLogging then
    [Effect.Log ELogVerbosity.Log
      (TEXT "[GameRagKit] Server health: " ++ (if bHealthy then TEXT "OK" else TEXT "FAILED"))]
  else []

end UNpcDialogueComponent

/-! ## AskNpcLibrary.{h,cpp} -/

/-- The struct `FAskNpcResponse`. -/
structure FAskNpcResponse where
  Answer : FString
  Sources : List FString
  Scores : List Rat
  bFromCloud : Bool
  deriving DecidableEq, Repr

/-- A default-constructed `FAskNpcResponse`; `bFromCloud` has the initialiser `false`. -/
def FAskNpcResponse.Construct : FAskNpcResponse :=
  { Answer := [], Sources := [], Scores := [], bFromCloud := false }

namespace UAskNpcLibrary

/-- The decode block of `UAskNpcLibrary::AskNpc`, entered for a valid response of status 200:
`Response` is updated in place from the content of the HTTP response. -/
def Decode (E : Engine) (ContentAsString : FString) (Response : FAskNpcResponse) :
    FAskNpcResponse :=
  match E.Deserialize ContentAsString with
  | some Json =>
    let Response := { Response with Answer := Json.GetStringField E (TEXT "answer") }
    let Response :=
      match Json.TryGetArrayField (TEXT "sources") with
      | some SourceArray =>
        SourceArray.foldl
          (fun (Out : FAskNpcResponse) (Value : FJsonValue) =>
            { Out with Sources := Out.Sources ++ [Value.AsString E] })
          Response
      | none => Response
    let Response :=
      match Json.TryGetArrayField (TEXT "scores") with
      | some ScoreArray =>
        ScoreArray.foldl
          (fun (Out : FAskNpcResponse) (Value : FJsonValue) =>
            { Out with Scores := Out.Scores ++ [E.NarrowToFloat (Value.AsNumber E)] })
          Response
      | none => Response
    { Response with bFromCloud := Json.GetBoolField E (TEXT "fromCloud") }
  | none => Response

/-- Source function `UAskNpcLibrary::AskNpc`. The request is processed synchronously;
`ProcessRequest` is the transport, giving the response pointer for a request. -/
def AskNpc (E : Engine) (ProcessRequest : FHttpRequest → Option FHttpResponse)
    (NpcId Question : FString) (Response : FAskNpcResponse) : FAskNpcResponse :=
  let Request := FHttpRequest.CreateRequest
  let Request := { Request with URL := TEXT "http://127.0.0.1:5280/ask" }
  let Request := { Request with Verb := TEXT "POST" }
  let Request := Request.SetHeader (TEXT "Content-Type") (TEXT "application/json")
  let Body : FJsonObject := ⟨[]⟩
  let Body := Body.SetStringField (TEXT "npc") NpcId
  let Body := Body.SetStringField (TEXT "question") Question
  let Payload := E.Serialize Body
  let Request := { Request with Content := Payload }
  match ProcessRequest Request with
  | some HttpResponse =>
    if HttpResponse.ResponseCode = 200 then Decode E HttpResponse.ContentAsString Response
    else Response
  | none => Response

end UAskNpcLibrary

/-! ## A reference engine

A small JSON reader and writer that stand for the engine's in the worked examples. -/

namespace Reference

/-- The double quote. -/
def Quote : Char := Char.ofNat 34

/-- The backslash. -/
def Backslash : Char := Char.ofNat 92

/-- JSON white space is skipped. -/
def SkipWs (cs : List Char) : List Char := cs.dropWhile FChar.IsWhitespace

/-- The character an escape letter stands for. -/
def Unescape (c : Char) : Option Char :=
  if c = Quote then some Quote
  else if c = Backslash then some Backslash
  else if c = '/' then some '/'
  else if c = 'n' then some '\n'
  else if c = 'r' then some '\r'
  else if c = 't' then some '\t'
  else if c = 'b' then some (Char.ofNat 8)
  else if c = 'f' then some (Char.ofNat 12)
  else none

/-- The rest of a string token, after its opening quote: the text and what follows the closing
quote. -/
def ReadStringBody : List Char → FString → Option (FString × List Char)
  | [], _ => none
  | c :: rest, Text =>
    if c = Quote then some (Text, rest)
    else if c = Backslash then
      match rest with
      | e :: rest2 =>
        match Unescape e with
        | some ch => ReadStringBody rest2 (Text ++ [ch])
        | none => none
      | [] => none
    else if c.toNat < 32 then none
    else ReadStringBody rest (Text ++ [c])

/-- A run of decimal digits: its value, its length and what follows. -/
def ReadDigits : List Char → Nat → Nat → Nat × Nat × List Char
  | [], Value, Count => (Value, Count, [])
  | c :: rest, Value, Count =>
    if c.isDigit then ReadDigits rest (Value * 10 + (c.toNat - 48)) (Count + 1)
    else (Value, Count, c :: rest)

/-- A number token: sign, integer digits, optional fraction digits. -/
def ReadNumber (cs : List Char) : Option (Rat × List Char) :=
  let (Negative, cs) :=
    match cs with
    | c :: rest => if c = '-' then (true, rest) else (false, c :: rest)
    | [] => (false, [])
  match ReadDigits cs 0 0 with
  | (_, 0, _) => none
  | (Whole, _, rest) =>
    let (Value, rest) : Rat × List Char :=
      match rest with
      | c :: rest2 =>
        if c = '.' then
          match ReadDigits rest2 0 0 with
          | (Frac, Count, rest3) =>
            (mkRat (Whole * 10 ^ Count + Frac : Nat) (10 ^ Count), rest3)
        else (mkRat Whole 1, c :: rest2)
      | [] => (mkRat Whole 1, [])
    some (if Negative then -Value else Value, rest)

/-- The given characters are expected next. -/
def Expect : List Char → List Char → Option (List Char)
  | [], cs => some cs
  | _ :: _, [] => none
  | w :: Word, c :: cs => if w = c then Expect Word cs else none

mutual

/-- One JSON value and what follows it. The first argument bounds the number of tokens. -/
def ReadValue : Nat → List Char → Option (FJsonValue × List Char)
  | 0, _ => none
  | Fuel + 1, cs =>
    match SkipWs cs with
    | [] => none
    | c :: rest =>
      if c = '{' then
        match SkipWs rest with
        | d :: rest2 =>
          if d = '}' then some (FJsonValue.JsonObject [], rest2)
          else (ReadMembers Fuel (d :: rest2) ⟨[]⟩).map
            (fun r => (FJsonValue.JsonObject r.1.Values, r.2))
        | [] => none
      else if c = '[' then
        match SkipWs rest with
        | d :: rest2 =>
          if d = ']' then some (FJsonValue.JsonArray [], rest2)
          else (ReadElements Fuel (d :: rest2) []).map
            (fun r => (FJsonValue.JsonArray r.1, r.2))
        | [] => none
      else if c = Quote then
        (ReadStringBody rest []).map (fun r => (FJsonValue.JsonString r.1, r.2))
      else if c = 't' then
        (Expect (TEXT "rue") rest).map (fun r => (FJsonValue.JsonBoolean true, r))
      else if c = 'f' then
        (Expect (TEXT "alse") rest).map (fun r => (FJsonValue.JsonBoolean false, r))
      else if c = 'n' then
        (Expect (TEXT "ull") rest).map (fun r => (FJsonValue.JsonNull, r))
      else (ReadNumber (c :: rest)).map (fun r => (FJsonValue.JsonNumber r.1, r.2))

/-- The members of an object, up to and including its closing brace. -/
def ReadMembers : Nat → List Char → FJsonObject → Option (FJsonObject × List Char)
  | 0, _, _ => none
  | Fuel + 1, cs, Members =>
    match SkipWs cs with
    | q :: rest =>
      if q = Quote then
        match ReadStringBody rest [] with
        | some (Key, rest) =>
          match SkipWs rest with
          | k :: rest =>
            if k = ':' then
              match ReadValue Fuel rest with
              | some (Value, rest) =>
                match SkipWs rest with
                | d :: rest =>
                  if d = ',' then ReadMembers Fuel rest (Members.SetField Key Value)
                  else if d = '}' then some (Members.SetField Key Value, rest)
                  else none
                | [] => none
              | none => none
            else none
          | [] => none
        | none => none
      else none
    | [] => none

/-- The elements of an array, up to and including its closing bracket. -/
def ReadElements : Nat → List Char → List FJsonValue → Option (List FJsonValue × List Char)
  | 0, _, _ => none
  | Fuel + 1, cs, Elements =>
    match ReadValue Fuel cs with
    | some (Value, rest) =>
      match SkipWs rest with
      | d :: rest =>
        if d = ',' then ReadElements Fuel rest (Elements ++ [Value])
        else if d = ']' then some (Elements ++ [Value], rest)
        else none
      | [] => none
    | none => none

end

/-- The reader: the text must be one JSON object, with white space around it at most. -/
def Deserialize (cs : FString) : Option FJsonObject :=
  match ReadValue (cs.length + 1) cs with
  | some (FJsonValue.JsonObject Members, rest) =>
    if (SkipWs rest).isEmpty then some ⟨Members⟩ else none
  | _ => none

/-- A string token: quote, backslash, line breaks and tabs are escaped. -/
def WriteString (s : FString) : FString :=
  [Quote] ++ s.flatMap (fun c =>
      if c = Quote ∨ c = Backslash then [Backslash, c]
      else if c = '\n' then [Backslash, 'n']
      else if c = '\r' then [Backslash, 'r']
      else if c = '\t' then [Backslash, 't']
      else [c])
    ++ [Quote]

/-- A number with up to six fraction digits. -/
def SanitizeFloat (v : Rat) : FString :=
  let Whole := v.num.natAbs / v.den
  let Frac := (v.num.natAbs % v.den) * 1000000 / v.den
  let Digits := Nat.toDigits 10 (1000000 + Frac)
  let FracText := ((Digits.drop 1).reverse.dropWhile (fun c => c = '0')).reverse
  (if v < 0 then ['-'] else []) ++ Nat.toDigits 10 Whole ++ ['.']
    ++ (if FracText.isEmpty then ['0'] else FracText)

/-- A value as JSON text; nesting deeper than the first argument is written as `null`. -/
def WriteValue : Nat → FJsonValue → FString
  | _, .JsonNull => TEXT "null"
  | _, .JsonString v => WriteString v
  | _, .JsonNumber v => SanitizeFloat v
  | _, .JsonBoolean v => if v then TEXT "true" else TEXT "false"
  | 0, _ => TEXT "null"
  | Depth + 1, .JsonArray vs =>
    ['['] ++ ((vs.map (WriteValue Depth)).intersperse [',']).flatten ++ [']']
  | Depth + 1, .JsonObject ms =>
    ['{'] ++ ((ms.map (fun kv => WriteString kv.1 ++ [':'] ++ WriteValue Depth kv.2)).intersperse
      [',']).flatten ++ ['}']

/-- The writer. -/
def Serialize (o : FJsonObject) : FString := WriteValue 64 (FJsonValue.JsonObject o.Values)

/-- A numeric string as a number. -/
def Atod (s : FString) : Option Rat :=
  match ReadNumber s with
  | some (v, []) => some v
  | _ => none

/-- The text is `true`, `yes` or `on`, or a number other than zero. -/
def ToBool (s : FString) : Bool :=
  FString.Equals s (TEXT "true") || FString.Equals s (TEXT "yes") || FString.Equals s (TEXT "on")
    || (match Atod s with
        | some v => decide (v ≠ 0)
        | none => false)

/-- The reference engine. Narrowing to `float` is exact on the values of the examples. -/
def Engine : GameRagKit.Engine :=
  { Deserialize := Deserialize, Serialize := Serialize, SanitizeFloat := SanitizeFloat,
    Atod := Atod, ToBool := ToBool, NarrowToFloat := fun v => v }

end Reference

/-! ## Lines of a body -/

/-- A line break character: each of the delimiters of `ParseIntoArrayLines` is made of them. -/
def IsLineBreak (c : Char) : Bool := c = '\r' || c = '\n'

/-- The text is a sequence of complete lines: it is empty or ends in a line break. -/
def CompleteLines (P : FString) : Prop := ∀ c ∈ P.getLast?, IsLineBreak c = true

/-- The text is (part of) one line: it has no line break. -/
def OneLine (L : FString) : Prop := ∀ c ∈ L, IsLineBreak c = false

instance (P : FString) : Decidable (CompleteLines P) := by
  unfold CompleteLines; infer_instance

instance (L : FString) : Decidable (OneLine L) := by
  unfold OneLine; infer_instance

/-! ## The streaming protocol on the wire -/

/-- A stream event of the protocol. -/
inductive StreamEvent where
  | Chunk (text : FString)
  | End
  deriving DecidableEq, Repr

/-- The stream events the component hands to its caller. The only streaming delegate of the
header is `OnTextChunkReceived`, one `Chunk` per broadcast; log lines, errors and answers are
no stream events. -/
def Delivered (Trace : List Effect) : List StreamEvent :=
  Trace.filterMap (fun e =>
    match e with
    | Effect.OnTextChunkReceived t => some (StreamEvent.Chunk t)
    | _ => none)

/-- The payload of a chunk frame, `Enc` being the JSON string token of the text. -/
def ChunkPayload (Enc : FString) : FString :=
  TEXT "\x7b\"type\":\"chunk\",\"text\":" ++ Enc ++ TEXT "\x7d"

/-- The payload of the end frame. -/
def EndPayload : FString := TEXT "\x7b\"type\":\"end\"\x7d"

/-- A frame on the wire: `data: `, the payload, a newline and a blank line. -/
def Frame (Payload : FString) : FString := TEXT "data: " ++ Payload ++ TEXT "\n\n"

/-- The body of a whole stream: one chunk frame per token, then the end frame. -/
def StreamBody (Encs : List FString) : FString :=
  Encs.flatMap (fun Enc => Frame (ChunkPayload Enc)) ++ Frame EndPayload

/-- The engine's reader decodes the chunk payload written with the token `Enc` to an object
whose `type` reads `chunk` and whose `text` reads `Text`; a token has no raw line break. -/
def ReadsChunk (E : Engine) (Enc Text : FString) : Prop :=
  OneLine Enc ∧
  (E.Deserialize (ChunkPayload Enc)).map
      (fun o => (o.GetStringField E (TEXT "type"), o.GetStringField E (TEXT "text")))
    = some (TEXT "chunk", Text)

/-- The engine's reader decodes the end payload to an object whose `type` reads `end`. -/
def ReadsEnd (E : Engine) : Prop :=
  (E.Deserialize EndPayload).map (fun o => o.GetStringField E (TEXT "type")) = some (TEXT "end")

instance (E : Engine) (Enc Text : FString) : Decidable (ReadsChunk E Enc Text) := by
  unfold ReadsChunk; infer_instance

instance (E : Engine) : Decidable (ReadsEnd E) := by
  unfold ReadsEnd; infer_instance

/-- The log line of an end frame, written when logging is enabled. -/
def EndLog (self : UNpcDialogueComponent) : List Effect :=
  if self.bEnableLogging then
    [Effect.Log ELogVerbosity.Log (TEXT "[GameRagKit] Streaming complete")]
  else []

/-! ## Observations on a trace -/

/-- The error notifications of a trace: the messages broadcast on `OnError`. -/
def Errors (Trace : List Effect) : List FString :=
  Trace.filterMap (fun e =>
    match e with
    | Effect.OnError m => some m
    | _ => none)

/-- The answers of a trace: the responses broadcast on `OnResponseReceived`. -/
def Answers (Trace : List Effect) : List FNpcResponse :=
  Trace.filterMap (fun e =>
    match e with
    | Effect.OnResponseReceived r => some r
    | _ => none)

/-- The requests of a trace: those handed to the transport by `ProcessRequest`. -/
def Requests (Trace : List Effect) : List FHttpRequest :=
  Trace.filterMap (fun e =>
    match e with
    | Effect.ProcessRequest r => some r
    | _ => none)

/-- The `sources` of a decoded object as both decoders read them: the strings of the array
field, none when the field is missing or no array. -/
def SourcesOf (E : Engine) (o : FJsonObject) : List FString :=
  ((o.TryGetArrayField (TEXT "sources")).getD []).map (fun v => v.AsString E)

/-- The `scores` of a decoded object as both decoders read them. -/
def ScoresOf (E : Engine) (o : FJsonObject) : List Rat :=
  ((o.TryGetArrayField (TEXT "scores")).getD []).map (fun v => E.NarrowToFloat (v.AsNumber E))

/-! # Theorems -/

set_option maxRecDepth 100000

/-! ## Lines of a body: lemmas -/

theorem cullEmpty_nil : FString.CullEmpty [] = [] := rfl

theorem cullEmpty_of_ne_nil {L : FString} (h : L ≠ []) : FString.CullEmpty L = [L] := by
  cases L with
  | nil => exact absurd rfl h
  | cons c t => rfl

theorem linesFrom_cons_lf (rest Sub : FString) :
    FString.ParseIntoArrayLinesFrom ('\n' :: rest) Sub
      = FString.CullEmpty Sub ++ FString.ParseIntoArrayLinesFrom rest [] := by
  conv => lhs; unfold FString.ParseIntoArrayLinesFrom
  simp

theorem linesFrom_cons_cr_lf (rest Sub : FString) :
    FString.ParseIntoArrayLinesFrom ('\r' :: '\n' :: rest) Sub
      = FString.CullEmpty Sub ++ FString.ParseIntoArrayLinesFrom rest [] := by
  conv => lhs; unfold FString.ParseIntoArrayLinesFrom
  simp

theorem linesFrom_cons_cr (d : Char) (rest Sub : FString) (h : d ≠ '\n') :
    FString.ParseIntoArrayLinesFrom ('\r' :: d :: rest) Sub
      = FString.CullEmpty Sub ++ FString.ParseIntoArrayLinesFrom (d :: rest) [] := by
  conv => lhs; unfold FString.ParseIntoArrayLinesFrom
  simp [h]

theorem linesFrom_cr_nil (Sub : FString) :
    FString.ParseIntoArrayLinesFrom ['\r'] Sub = FString.CullEmpty Sub := by
  conv => lhs; unfold FString.ParseIntoArrayLinesFrom
  simp

theorem linesFrom_nil (Sub : FString) :
    FString.ParseIntoArrayLinesFrom [] Sub = FString.CullEmpty Sub := by
  conv => lhs; unfold FString.ParseIntoArrayLinesFrom

/-- A character that is no line break joins the current substring. -/
theorem linesFrom_cons_other (c : Char) (rest Sub : FString) (h : IsLineBreak c = false) :
    FString.ParseIntoArrayLinesFrom (c :: rest) Sub
      = FString.ParseIntoArrayLinesFrom rest (Sub ++ [c]) := by
  have h1 : c ≠ '\r' := by intro e; subst e; revert h; decide
  have h2 : c ≠ '\n' := by intro e; subst e; revert h; decide
  conv => lhs; unfold FString.ParseIntoArrayLinesFrom
  simp [h1, h2]

/-- A line break closes the current substring, whichever delimiter it belongs to. -/
theorem linesFrom_cons_break (c : Char) (rest Sub : FString) (h : IsLineBreak c = true) :
    FString.ParseIntoArrayLinesFrom (c :: rest) Sub
      = FString.CullEmpty Sub ++ FString.ParseIntoArrayLinesFrom rest [] := by
  have hc : c = '\r' ∨ c = '\n' := by simpa [IsLineBreak] using h
  rcases hc with rfl | rfl
  · cases rest with
    | nil => rw [linesFrom_cr_nil, linesFrom_nil, cullEmpty_nil, List.append_nil]
    | cons d rest2 =>
      by_cases hd : d = '\n'
      · subst hd
        rw [linesFrom_cons_cr_lf, linesFrom_cons_lf, cullEmpty_nil, List.nil_append]
      · rw [linesFrom_cons_cr d rest2 Sub hd]
  · exact linesFrom_cons_lf rest Sub

/-- A run without line breaks joins the current substring. -/
theorem linesFrom_append_oneLine (L rest : FString) (h : OneLine L) (Sub : FString) :
    FString.ParseIntoArrayLinesFrom (L ++ rest) Sub
      = FString.ParseIntoArrayLinesFrom rest (Sub ++ L) := by
  induction L generalizing Sub with
  | nil => simp
  | cons c t ih =>
    have hc : IsLineBreak c = false := h c (List.mem_cons_self _ _)
    have ht : OneLine t := fun d hd => h d (List.mem_cons_of_mem _ hd)
    rw [List.cons_append, linesFrom_cons_other c _ Sub hc, ih ht]
    simp

/-- After a non-empty sequence of complete lines the scan starts afresh. -/
theorem linesFrom_append_complete (P Q : FString) (hne : P ≠ []) (h : CompleteLines P)
    (Sub : FString) :
    FString.ParseIntoArrayLinesFrom (P ++ Q) Sub
      = FString.ParseIntoArrayLinesFrom P Sub ++ FString.ParseIntoArrayLinesFrom Q [] := by
  induction P generalizing Sub with
  | nil => exact absurd rfl hne
  | cons c t ih =>
    cases t with
    | nil =>
      have hc : IsLineBreak c = true := h c (by simp)
      rw [List.cons_append, List.nil_append, linesFrom_cons_break c Q Sub hc,
        linesFrom_cons_break c [] Sub hc, linesFrom_nil, cullEmpty_nil, List.append_nil]
    | cons d t2 =>
      have ht : CompleteLines (d :: t2) := by
        intro x hx
        apply h x
        simpa using hx
      have ih2 := ih (by simp) ht
      cases hc : IsLineBreak c with
      | true =>
        rw [List.cons_append, linesFrom_cons_break c _ Sub hc,
          linesFrom_cons_break c _ Sub hc, ih2 [], List.append_assoc]
      | false =>
        rw [List.cons_append, linesFrom_cons_other c _ Sub hc,
          linesFrom_cons_other c _ Sub hc, ih2]

/-- The lines of a text after complete lines are the lines of both parts. -/
theorem lines_append (P Q : FString) (h : CompleteLines P) :
    FString.ParseIntoArrayLines (P ++ Q)
      = FString.ParseIntoArrayLines P ++ FString.ParseIntoArrayLines Q := by
  by_cases hne : P = []
  · subst hne
    simp [FString.ParseIntoArrayLines, linesFrom_nil, cullEmpty_nil]
  · exact linesFrom_append_complete P Q hne h []

/-- A non-empty run of line breaks holds no line. -/
theorem lines_breaks (T : FString) (h : ∀ c ∈ T, IsLineBreak c = true) :
    FString.ParseIntoArrayLines T = [] := by
  unfold FString.ParseIntoArrayLines
  induction T with
  | nil => rfl
  | cons c t ih =>
    rw [linesFrom_cons_break c t [] (h c (List.mem_cons_self _ _)),
      ih (fun d hd => h d (List.mem_cons_of_mem _ hd))]
    rfl

/-- One terminated line: a text without line break followed by a run of line breaks. -/
theorem lines_terminated (L T : FString) (hL : OneLine L) (hT : ∀ c ∈ T, IsLineBreak c = true) :
    FString.ParseIntoArrayLines (L ++ T) = FString.CullEmpty L := by
  unfold FString.ParseIntoArrayLines
  rw [linesFrom_append_oneLine L T hL []]
  cases T with
  | nil => simp [linesFrom_nil]
  | cons c t =>
    rw [linesFrom_cons_break c t _ (hT c (List.mem_cons_self _ _))]
    have := lines_breaks t (fun d hd => hT d (List.mem_cons_of_mem _ hd))
    unfold FString.ParseIntoArrayLines at this
    simp [this]

/-- A terminated line is a sequence of complete lines. -/
theorem completeLines_terminated (L T : FString) (hne : T ≠ [])
    (hT : ∀ c ∈ T, IsLineBreak c = true) : CompleteLines (L ++ T) := by
  intro c hc
  rw [List.getLast?_append_of_ne_nil _ hne] at hc
  exact hT c (List.mem_of_mem_getLast? hc)

/-- Complete lines followed by complete lines are complete lines. -/
theorem completeLines_append (P Q : FString) (hP : CompleteLines P) (hQ : CompleteLines Q) :
    CompleteLines (P ++ Q) := by
  by_cases hne : Q = []
  · subst hne; simpa using hP
  · intro c hc
    rw [List.getLast?_append_of_ne_nil _ hne] at hc
    exact hQ c hc

/-! ## The streaming parser: lemmas -/

theorem text_data_colon : TEXT "data:" = ['d', 'a', 't', 'a', ':'] := by decide

theorem startsWith_data (rest : FString) :
    FString.StartsWith (TEXT "data:" ++ rest) (TEXT "data:") = true := by
  rw [text_data_colon]
  simp [FString.StartsWith, FCString.StrnicmpEq]

theorem rightChop_data (rest : FString) : (TEXT "data:" ++ rest).RightChop 5 = rest := by
  rw [text_data_colon]
  simp [FString.RightChop]

namespace UNpcDialogueComponent

/-- The loop of `ParseStreamingResponse` concatenates the effects of the lines. -/
theorem parseStreamingResponse_eq (E : Engine) (self : UNpcDialogueComponent) (B : FString) :
    ParseStreamingResponse E self B
      = B.ParseIntoArrayLines.flatMap (ParseStreamingLine E self) := by
  have key : ∀ (Lines : List FString) (Done : List Effect),
      Lines.foldl (fun Done Line => Done ++ ParseStreamingLine E self Line) Done
        = Done ++ Lines.flatMap (ParseStreamingLine E self) := by
    intro Lines
    induction Lines with
    | nil => intro Done; simp
    | cons L t ih => intro Done; simp [List.foldl_cons, ih, List.flatMap_cons]
  simpa [ParseStreamingResponse] using key B.ParseIntoArrayLines []

/-- After complete lines, the rest of the body is handled on its own. -/
theorem parseStreamingResponse_append (E : Engine) (self : UNpcDialogueComponent)
    (P Q : FString) (h : CompleteLines P) :
    ParseStreamingResponse E self (P ++ Q)
      = ParseStreamingResponse E self P ++ ParseStreamingResponse E self Q := by
  simp [parseStreamingResponse_eq, lines_append P Q h, List.flatMap_append]

theorem parseStreamingLine_nil (E : Engine) (self : UNpcDialogueComponent) :
    ParseStreamingLine E self [] = [] := by
  simp [ParseStreamingLine, FString.StartsWith, FCString.StrnicmpEq, TEXT]

/-- A body of one terminated line is handled as that line. -/
theorem parseStreamingResponse_line (E : Engine) (self : UNpcDialogueComponent)
    (L T : FString) (hL : OneLine L) (hT : ∀ c ∈ T, IsLineBreak c = true) :
    ParseStreamingResponse E self (L ++ T) = ParseStreamingLine E self L := by
  rw [parseStreamingResponse_eq, lines_terminated L T hL hT]
  cases L with
  | nil => simp [cullEmpty_nil, parseStreamingLine_nil]
  | cons c t => simp [cullEmpty_of_ne_nil]

/-- A `data:` line whose payload the reader rejects makes the component do nothing. -/
theorem parseStreamingLine_malformed (E : Engine) (self : UNpcDialogueComponent)
    (rest : FString) (h : E.Deserialize rest.TrimStartAndEnd = none) :
    ParseStreamingLine E self (TEXT "data:" ++ rest) = [] := by
  unfold ParseStreamingLine
  rw [startsWith_data, rightChop_data]
  simp [h]

/-- A `data:` line whose payload reads as an object of type `chunk` broadcasts its text. -/
theorem parseStreamingLine_chunk (E : Engine) (self : UNpcDialogueComponent)
    (rest : FString) (o : FJsonObject) (hne : rest.TrimStartAndEnd ≠ [])
    (h : E.Deserialize rest.TrimStartAndEnd = some o)
    (htype : o.GetStringField E (TEXT "type") = TEXT "chunk") :
    ParseStreamingLine E self (TEXT "data:" ++ rest)
      = [Effect.OnTextChunkReceived (o.GetStringField E (TEXT "text"))] := by
  have e1 : FString.Equals (TEXT "chunk") (TEXT "chunk") = true := by decide
  unfold ParseStreamingLine
  rw [startsWith_data, rightChop_data]
  simp [h, htype, e1, FString.IsEmpty, hne]

/-- A `data:` line whose payload reads as an object of type `end` only writes the log line. -/
theorem parseStreamingLine_end (E : Engine) (self : UNpcDialogueComponent)
    (rest : FString) (o : FJsonObject) (hne : rest.TrimStartAndEnd ≠ [])
    (h : E.Deserialize rest.TrimStartAndEnd = some o)
    (htype : o.GetStringField E (TEXT "type") = TEXT "end") :
    ParseStreamingLine E self (TEXT "data:" ++ rest) = EndLog self := by
  have e1 : FString.Equals (TEXT "end") (TEXT "chunk") = false := by decide
  have e2 : FString.Equals (TEXT "end") (TEXT "end") = true := by decide
  unfold ParseStreamingLine
  rw [startsWith_data, rightChop_data]
  simp [h, htype, e1, e2, FString.IsEmpty, hne, EndLog]

end UNpcDialogueComponent

/-! ## Trimming -/

theorem trimEnd_eq_rdropWhile (s : FString) :
    s.TrimEnd = s.rdropWhile FChar.IsWhitespace := rfl

theorem trimEnd_concat (s : FString) (z : Char) (hz : FChar.IsWhitespace z = false) :
    FString.TrimEnd (s ++ [z]) = s ++ [z] := by
  rw [trimEnd_eq_rdropWhile]
  exact List.rdropWhile_concat_neg _ _ _ (by simp [hz])

theorem trimStart_cons (a : Char) (s : FString) (ha : FChar.IsWhitespace a = false) :
    FString.TrimStart (a :: s) = a :: s := by
  simp [FString.TrimStart, List.dropWhile, ha]

/-- A payload that starts and ends with a character that is no white space comes out of
`TrimStartAndEnd` without the blank that follows `data:`. -/
theorem trim_blank_payload (a z : Char) (mid : FString)
    (ha : FChar.IsWhitespace a = false) (hz : FChar.IsWhitespace z = false) :
    FString.TrimStartAndEnd (' ' :: a :: (mid ++ [z])) = a :: (mid ++ [z]) := by
  unfold FString.TrimStartAndEnd
  have h1 : FString.TrimEnd (' ' :: a :: (mid ++ [z])) = ' ' :: a :: (mid ++ [z]) := by
    have := trimEnd_concat (' ' :: a :: mid) z hz
    simpa using this
  rw [h1]
  have h2 : FChar.IsWhitespace ' ' = true := by decide
  simp [FString.TrimStart, List.dropWhile, h2, ha]

theorem chunkPayload_shape (Enc : FString) :
    ChunkPayload Enc = '{' :: ((TEXT "\"type\":\"chunk\",\"text\":" ++ Enc) ++ ['}']) := by
  have h1 : TEXT "\x7b\"type\":\"chunk\",\"text\":" = '{' :: TEXT "\"type\":\"chunk\",\"text\":" := by
    decide
  have h2 : TEXT "\x7d" = ['}'] := by decide
  simp [ChunkPayload, h1, h2]

theorem endPayload_shape : EndPayload = '{' :: (TEXT "\"type\":\"end\"" ++ ['}']) := by decide

theorem trim_chunkPayload (Enc : FString) :
    FString.TrimStartAndEnd (' ' :: ChunkPayload Enc) = ChunkPayload Enc := by
  rw [chunkPayload_shape]
  exact trim_blank_payload _ _ _ (by decide) (by decide)

theorem trim_endPayload : FString.TrimStartAndEnd (' ' :: EndPayload) = EndPayload := by decide

theorem text_data_blank (Payload : FString) :
    TEXT "data: " ++ Payload = TEXT "data:" ++ (' ' :: Payload) := by
  have h : TEXT "data: " = TEXT "data:" ++ [' '] := by decide
  rw [h]; simp

theorem oneLine_append {a b : FString} (ha : OneLine a) (hb : OneLine b) : OneLine (a ++ b) := by
  intro c hc
  rcases List.mem_append.mp hc with h | h
  · exact ha c h
  · exact hb c h

theorem oneLine_chunkLine (Enc : FString) (h : OneLine Enc) :
    OneLine (TEXT "data: " ++ ChunkPayload Enc) := by
  unfold ChunkPayload
  exact oneLine_append (by decide) (oneLine_append (oneLine_append (by decide) h) (by decide))

theorem breaks_blank_line : ∀ c ∈ TEXT "\n\n", IsLineBreak c = true := by decide

namespace UNpcDialogueComponent

/-- A frame is handled as its `data:` line. -/
theorem parseStreamingResponse_frame (E : Engine) (self : UNpcDialogueComponent)
    (Payload : FString) (h : OneLine Payload) :
    ParseStreamingResponse E self (Frame Payload)
      = ParseStreamingLine E self (TEXT "data:" ++ (' ' :: Payload)) := by
  unfold Frame
  rw [parseStreamingResponse_line E self _ _ (oneLine_append (by decide) h) breaks_blank_line,
    text_data_blank]

/-- A chunk frame the reader decodes broadcasts its text. -/
theorem parseStreamingResponse_chunkFrame (E : Engine) (self : UNpcDialogueComponent)
    (Enc Text : FString) (h : ReadsChunk E Enc Text) :
    ParseStreamingResponse E self (Frame (ChunkPayload Enc))
      = [Effect.OnTextChunkReceived Text] := by
  obtain ⟨hl, hr⟩ := h
  have hone : OneLine (ChunkPayload Enc) := by
    unfold ChunkPayload
    exact oneLine_append (oneLine_append (by decide) hl) (by decide)
  rw [parseStreamingResponse_frame E self _ hone]
  cases hd : E.Deserialize (ChunkPayload Enc) with
  | none => rw [hd] at hr; simp at hr
  | some o =>
    rw [hd] at hr
    simp only [Option.map_some', Option.some.injEq, Prod.mk.injEq] at hr
    have hne : FString.TrimStartAndEnd (' ' :: ChunkPayload Enc) ≠ [] := by
      rw [trim_chunkPayload, chunkPayload_shape]; simp
    rw [parseStreamingLine_chunk E self _ o hne (by rw [trim_chunkPayload]; exact hd) hr.1, hr.2]

/-- The end frame, when the reader decodes it, only writes the log line. -/
theorem parseStreamingResponse_endFrame (E : Engine) (self : UNpcDialogueComponent)
    (h : ReadsEnd E) :
    ParseStreamingResponse E self (Frame EndPayload) = EndLog self := by
  rw [parseStreamingResponse_frame E self _ (by decide)]
  unfold ReadsEnd at h
  cases hd : E.Deserialize EndPayload with
  | none => rw [hd] at h; simp at h
  | some o =>
    rw [hd] at h
    simp only [Option.map_some', Option.some.injEq] at h
    have hne : FString.TrimStartAndEnd (' ' :: EndPayload) ≠ [] := by
      rw [trim_endPayload]; decide
    exact parseStreamingLine_end E self _ o hne (by rw [trim_endPayload]; exact hd) h

theorem completeLines_frame (Payload : FString) : CompleteLines (Frame Payload) := by
  unfold Frame
  exact completeLines_terminated _ _ (by decide) breaks_blank_line

/-- The chunk frames of a stream broadcast their texts in order. -/
theorem parseStreamingResponse_chunkFrames (E : Engine) (self : UNpcDialogueComponent)
    (Frames : List (FString × FString)) (h : ∀ f ∈ Frames, ReadsChunk E f.1 f.2)
    (Rest : FString) :
    ParseStreamingResponse E self
        ((Frames.map Prod.fst).flatMap (fun Enc => Frame (ChunkPayload Enc)) ++ Rest)
      = Frames.map (fun f => Effect.OnTextChunkReceived f.2)
          ++ ParseStreamingResponse E self Rest := by
  induction Frames with
  | nil => simp
  | cons f t ih =>
    have hf := h f (List.mem_cons_self _ _)
    have ht := ih (fun g hg => h g (List.mem_cons_of_mem _ hg))
    simp only [List.map_cons, List.flatMap_cons, List.append_assoc]
    rw [parseStreamingResponse_append E self _ _ (completeLines_frame _),
      parseStreamingResponse_chunkFrame E self f.1 f.2 hf, ht]
    simp

end UNpcDialogueComponent

/-! ## Delivered events -/

theorem delivered_append (a b : List Effect) : Delivered (a ++ b) = Delivered a ++ Delivered b := by
  simp [Delivered, List.filterMap_append]

theorem delivered_endLog (self : UNpcDialogueComponent) : Delivered (EndLog self) = [] := by
  unfold EndLog
  split <;> rfl

theorem delivered_chunks (Frames : List (FString × FString)) :
    Delivered (Frames.map (fun f => Effect.OnTextChunkReceived f.2))
      = Frames.map (fun f => StreamEvent.Chunk f.2) := by
  induction Frames with
  | nil => rfl
  | cons f t ih =>
    simp only [List.map_cons]
    rw [← ih]
    rfl

/-! ## Claims on the streaming parser -/

/-- C1 (as stated, refuted). The body of the specification, with the texts `Hel` and `lo`, does
not yield `[Chunk("Hel"), Chunk("lo"), End]`: the two chunks are broadcast and nothing is
delivered for the end frame. With logging disabled the component does nothing else at all; with
logging enabled the end frame only writes a log line. -/
theorem C1_end_event_not_delivered :
    Delivered (UNpcDialogueComponent.ParseStreamingResponse Reference.Engine {}
        (TEXT ("data: \x7b\"type\":\"chunk\",\"text\":\"Hel\"\x7d\n\n"
          ++ "data: \x7b\"type\":\"chunk\",\"text\":\"lo\"\x7d\n\n"
          ++ "data: \x7b\"type\":\"end\"\x7d\n\n")))
      ≠ [StreamEvent.Chunk (TEXT "Hel"), StreamEvent.Chunk (TEXT "lo"), StreamEvent.End]
    ∧ UNpcDialogueComponent.ParseStreamingResponse Reference.Engine { bEnableLogging := false }
        (TEXT ("data: \x7b\"type\":\"chunk\",\"text\":\"Hel\"\x7d\n\n"
          ++ "data: \x7b\"type\":\"chunk\",\"text\":\"lo\"\x7d\n\n"
          ++ "data: \x7b\"type\":\"end\"\x7d\n\n"))
      = [Effect.OnTextChunkReceived (TEXT "Hel"), Effect.OnTextChunkReceived (TEXT "lo")]
    ∧ UNpcDialogueComponent.ParseStreamingResponse Reference.Engine { bEnableLogging := true }
        (TEXT ("data: \x7b\"type\":\"chunk\",\"text\":\"Hel\"\x7d\n\n"
          ++ "data: \x7b\"type\":\"chunk\",\"text\":\"lo\"\x7d\n\n"
          ++ "data: \x7b\"type\":\"end\"\x7d\n\n"))
      = [Effect.OnTextChunkReceived (TEXT "Hel"), Effect.OnTextChunkReceived (TEXT "lo"),
         Effect.Log ELogVerbosity.Log (TEXT "[GameRagKit] Streaming complete")] := by
  decide

/-- C1 (amended). For every list of texts, written on the wire as chunk frames that the engine's
reader decodes, followed by the end frame, `ParseStreamingResponse` broadcasts exactly the texts,
in order, and then only writes the log line of the end frame: the events delivered to the caller
are `[Chunk(t1), ..., Chunk(tn)]`, with no `End`. -/
theorem C1_stream_yields_chunks_in_order (E : Engine) (self : UNpcDialogueComponent)
    (Frames : List (FString × FString))
    (hchunk : ∀ f ∈ Frames, ReadsChunk E f.1 f.2) (hend : ReadsEnd E) :
    UNpcDialogueComponent.ParseStreamingResponse E self (StreamBody (Frames.map Prod.fst))
        = Frames.map (fun f => Effect.OnTextChunkReceived f.2) ++ EndLog self
    ∧ Delivered
        (UNpcDialogueComponent.ParseStreamingResponse E self (StreamBody (Frames.map Prod.fst)))
        = Frames.map (fun f => StreamEvent.Chunk f.2) := by
  have h1 : UNpcDialogueComponent.ParseStreamingResponse E self
        (StreamBody (Frames.map Prod.fst))
      = Frames.map (fun f => Effect.OnTextChunkReceived f.2) ++ EndLog self := by
    unfold StreamBody
    rw [UNpcDialogueComponent.parseStreamingResponse_chunkFrames E self Frames hchunk,
      UNpcDialogueComponent.parseStreamingResponse_endFrame E self hend]
  refine ⟨h1, ?_⟩
  rw [h1, delivered_append, delivered_endLog, delivered_chunks, List.append_nil]

/-- C1 (amended), at the texts `Hel` and `lo` with the reference reader. -/
theorem C1_stream_yields_chunks_in_order_witness :
    (∀ f ∈ [(TEXT "\"Hel\"", TEXT "Hel"), (TEXT "\"lo\"", TEXT "lo")],
        ReadsChunk Reference.Engine f.1 f.2)
    ∧ ReadsEnd Reference.Engine
    ∧ StreamBody [TEXT "\"Hel\"", TEXT "\"lo\""]
        = TEXT ("data: \x7b\"type\":\"chunk\",\"text\":\"Hel\"\x7d\n\n"
          ++ "data: \x7b\"type\":\"chunk\",\"text\":\"lo\"\x7d\n\n"
          ++ "data: \x7b\"type\":\"end\"\x7d\n\n")
    ∧ Delivered (UNpcDialogueComponent.ParseStreamingResponse Reference.Engine {}
        (StreamBody [TEXT "\"Hel\"", TEXT "\"lo\""]))
      = [StreamEvent.Chunk (TEXT "Hel"), StreamEvent.Chunk (TEXT "lo")] :=
  ⟨by decide, by decide, by decide,
    (C1_stream_yields_chunks_in_order Reference.Engine {}
      [(TEXT "\"Hel\"", TEXT "Hel"), (TEXT "\"lo\"", TEXT "lo")] (by decide) (by decide)).2⟩

/-- C2 (as stated, refuted at its example). The line `data: not-json` followed by the end frame
does not yield `[End]`: it yields no event at all. With logging disabled the component does
nothing, with logging enabled it only writes the log line of the end frame. -/
theorem C2_end_after_malformed_frame_not_delivered :
    Delivered (UNpcDialogueComponent.ParseStreamingResponse Reference.Engine {}
        (TEXT "data: not-json\ndata: \x7b\"type\":\"end\"\x7d\n"))
      ≠ [StreamEvent.End]
    ∧ Delivered (UNpcDialogueComponent.ParseStreamingResponse Reference.Engine {}
        (TEXT "data: not-json\ndata: \x7b\"type\":\"end\"\x7d\n")) = []
    ∧ UNpcDialogueComponent.ParseStreamingResponse Reference.Engine { bEnableLogging := false }
        (TEXT "data: not-json\ndata: \x7b\"type\":\"end\"\x7d\n") = []
    ∧ UNpcDialogueComponent.ParseStreamingResponse Reference.Engine { bEnableLogging := true }
        (TEXT "data: not-json\ndata: \x7b\"type\":\"end\"\x7d\n")
      = [Effect.Log ELogVerbosity.Log (TEXT "[GameRagKit] Streaming complete")] := by
  decide

/-- C2 (amended: the property as stated, its example put right). A malformed frame is skipped and
parsing goes on: for every body `P` of complete lines, every rest `S`, and every line `data:` +
payload (ended by line breaks `T`) whose trimmed payload the engine's reader does not decode to
a JSON object, the component does for `P ++ line ++ S` exactly what it does for `P ++ S`, so the
events delivered are the same. -/
theorem C2_malformed_frame_is_skipped (E : Engine) (self : UNpcDialogueComponent)
    (P S Payload T : FString) (hP : CompleteLines P) (hL : OneLine Payload)
    (hT : T ≠ [] ∧ ∀ c ∈ T, IsLineBreak c = true)
    (hbad : E.Deserialize Payload.TrimStartAndEnd = none) :
    UNpcDialogueComponent.ParseStreamingResponse E self
        (P ++ (TEXT "data:" ++ Payload ++ T) ++ S)
      = UNpcDialogueComponent.ParseStreamingResponse E self (P ++ S)
    ∧ Delivered (UNpcDialogueComponent.ParseStreamingResponse E self
        (P ++ (TEXT "data:" ++ Payload ++ T) ++ S))
      = Delivered (UNpcDialogueComponent.ParseStreamingResponse E self (P ++ S)) := by
  have hline : OneLine (TEXT "data:" ++ Payload) := oneLine_append (by decide) hL
  have hcl : CompleteLines (TEXT "data:" ++ Payload ++ T) :=
    completeLines_terminated _ _ hT.1 hT.2
  have h1 : UNpcDialogueComponent.ParseStreamingResponse E self
        (P ++ (TEXT "data:" ++ Payload ++ T) ++ S)
      = UNpcDialogueComponent.ParseStreamingResponse E self (P ++ S) := by
    rw [List.append_assoc, UNpcDialogueComponent.parseStreamingResponse_append E self P _ hP,
      UNpcDialogueComponent.parseStreamingResponse_append E self _ S hcl,
      UNpcDialogueComponent.parseStreamingResponse_line E self _ T hline hT.2,
      UNpcDialogueComponent.parseStreamingLine_malformed E self Payload hbad,
      UNpcDialogueComponent.parseStreamingResponse_append E self P S hP]
    simp
  exact ⟨h1, by rw [h1]⟩

/-- C2 (amended), at the line `data: not-json` followed by the end frame, with the reference
reader: the body with the malformed line is handled as the body without it, and delivers no
event. -/
theorem C2_malformed_frame_is_skipped_witness :
    CompleteLines []
    ∧ OneLine (TEXT " not-json")
    ∧ Reference.Engine.Deserialize (TEXT " not-json").TrimStartAndEnd = none
    ∧ UNpcDialogueComponent.ParseStreamingResponse Reference.Engine {}
        ([] ++ (TEXT "data:" ++ TEXT " not-json" ++ TEXT "\n")
          ++ TEXT "data: \x7b\"type\":\"end\"\x7d\n")
      = UNpcDialogueComponent.ParseStreamingResponse Reference.Engine {}
        ([] ++ TEXT "data: \x7b\"type\":\"end\"\x7d\n")
    ∧ Delivered (UNpcDialogueComponent.ParseStreamingResponse Reference.Engine {}
        ([] ++ TEXT "data: \x7b\"type\":\"end\"\x7d\n")) = [] :=
  ⟨by decide, by decide, rfl,
    (C2_malformed_frame_is_skipped Reference.Engine {} []
      (TEXT "data: \x7b\"type\":\"end\"\x7d\n")
      (TEXT " not-json") (TEXT "\n") (by decide) (by decide) ⟨by decide, by decide⟩ rfl).1,
    by decide⟩

/-- C6 (as stated, refuted). A chunk frame placed after the end frame still produces its `Chunk`
event: the end frame alone delivers nothing, the body with the chunk frame after it delivers
the chunk. -/
theorem C6_chunk_after_end_is_delivered :
    Delivered (UNpcDialogueComponent.ParseStreamingResponse Reference.Engine {}
        (TEXT "data: \x7b\"type\":\"end\"\x7d\n\n")) = []
    ∧ Delivered (UNpcDialogueComponent.ParseStreamingResponse Reference.Engine {}
        (TEXT ("data: \x7b\"type\":\"end\"\x7d\n\n"
          ++ "data: \x7b\"type\":\"chunk\",\"text\":\"late\"\x7d\n\n")))
      = [StreamEvent.Chunk (TEXT "late")] := by
  decide

/-- C6 (amended). The parser does not stop at an end frame: for every body `P` of complete
lines and every rest `S`, the component does for `P ++ end frame ++ S` what it does for `P`,
then writes the log line of the end frame, then does what it does for `S`. The events
delivered are those of `P` followed by those of `S`; the end frame itself delivers none. -/
theorem C6_end_frame_does_not_stop_parsing (E : Engine) (self : UNpcDialogueComponent)
    (P S : FString) (hP : CompleteLines P) (hend : ReadsEnd E) :
    UNpcDialogueComponent.ParseStreamingResponse E self (P ++ Frame EndPayload ++ S)
        = UNpcDialogueComponent.ParseStreamingResponse E self P ++ EndLog self
            ++ UNpcDialogueComponent.ParseStreamingResponse E self S
    ∧ Delivered (UNpcDialogueComponent.ParseStreamingResponse E self (P ++ Frame EndPayload ++ S))
        = Delivered (UNpcDialogueComponent.ParseStreamingResponse E self P)
            ++ Delivered (UNpcDialogueComponent.ParseStreamingResponse E self S) := by
  have h1 : UNpcDialogueComponent.ParseStreamingResponse E self (P ++ Frame EndPayload ++ S)
        = UNpcDialogueComponent.ParseStreamingResponse E self P ++ EndLog self
            ++ UNpcDialogueComponent.ParseStreamingResponse E self S := by
    rw [List.append_assoc, UNpcDialogueComponent.parseStreamingResponse_append E self P _ hP,
      UNpcDialogueComponent.parseStreamingResponse_append E self _ S
        (UNpcDialogueComponent.completeLines_frame _),
      UNpcDialogueComponent.parseStreamingResponse_endFrame E self hend, List.append_assoc]
  refine ⟨h1, ?_⟩
  rw [h1, delivered_append, delivered_append, delivered_endLog, List.append_nil]

/-- C6 (amended), at a chunk frame before and a chunk frame after the end frame. -/
theorem C6_end_frame_does_not_stop_parsing_witness :
    CompleteLines (Frame (ChunkPayload (TEXT "\"early\"")))
    ∧ ReadsEnd Reference.Engine
    ∧ Delivered (UNpcDialogueComponent.ParseStreamingResponse Reference.Engine {}
          (Frame (ChunkPayload (TEXT "\"early\"")) ++ Frame EndPayload
            ++ Frame (ChunkPayload (TEXT "\"late\""))))
        = Delivered (UNpcDialogueComponent.ParseStreamingResponse Reference.Engine {}
            (Frame (ChunkPayload (TEXT "\"early\""))))
          ++ Delivered (UNpcDialogueComponent.ParseStreamingResponse Reference.Engine {}
            (Frame (ChunkPayload (TEXT "\"late\"")))) :=
  ⟨by decide, by decide,
    (C6_end_frame_does_not_stop_parsing Reference.Engine {}
      (Frame (ChunkPayload (TEXT "\"early\""))) (Frame (ChunkPayload (TEXT "\"late\"")))
      (by decide) (by decide)).2⟩

/-! ## White space around a line -/

theorem toLower_of_whitespace (c : Char) (h : FChar.IsWhitespace c = true) :
    FChar.ToLower c = c := by
  have hc : c = ' ' ∨ c = '\t' ∨ c = '\n' ∨ c = Char.ofNat 11 ∨ c = Char.ofNat 12 ∨ c = '\r' := by
    simpa [FChar.IsWhitespace, or_assoc] using h
  rcases hc with rfl | rfl | rfl | rfl | rfl | rfl <;> decide

/-- White space is kept after trailing text that ends in a character that is no white space. -/
theorem trimEnd_append (a b : FString) (z : Char) (hz : FChar.IsWhitespace z = false) :
    FString.TrimEnd ((a ++ [z]) ++ b) = (a ++ [z]) ++ FString.TrimEnd b := by
  induction b using List.reverseRecOn with
  | nil =>
    have h0 : FString.TrimEnd ([] : FString) = [] := rfl
    rw [List.append_nil, trimEnd_concat a z hz, h0, List.append_nil]
  | append_singleton b x ih =>
    cases hx : FChar.IsWhitespace x with
    | true =>
      have e1 : FString.TrimEnd (((a ++ [z]) ++ b) ++ [x]) = FString.TrimEnd ((a ++ [z]) ++ b) :=
        List.rdropWhile_concat_pos _ _ _ hx
      have e2 : FString.TrimEnd (b ++ [x]) = FString.TrimEnd b :=
        List.rdropWhile_concat_pos _ _ _ hx
      rw [← List.append_assoc, e1, e2, ih]
    | false =>
      rw [← List.append_assoc, trimEnd_concat _ x hx, trimEnd_concat _ x hx, List.append_assoc]

theorem trimEnd_trimEnd (s : FString) : FString.TrimEnd (FString.TrimEnd s) = FString.TrimEnd s := by
  induction s using List.reverseRecOn with
  | nil => rfl
  | append_singleton b x ih =>
    cases hx : FChar.IsWhitespace x with
    | true =>
      have e : FString.TrimEnd (b ++ [x]) = FString.TrimEnd b :=
        List.rdropWhile_concat_pos _ _ _ hx
      rw [e, ih]
    | false => rw [trimEnd_concat _ x hx, trimEnd_concat _ x hx]

theorem trimEnd_sublist (s : FString) : ∃ t, s = FString.TrimEnd s ++ t := by
  induction s using List.reverseRecOn with
  | nil => exact ⟨[], rfl⟩
  | append_singleton b x ih =>
    cases hx : FChar.IsWhitespace x with
    | true =>
      have e : FString.TrimEnd (b ++ [x]) = FString.TrimEnd b :=
        List.rdropWhile_concat_pos _ _ _ hx
      obtain ⟨t, ht⟩ := ih
      refine ⟨t ++ [x], ?_⟩
      rw [e, ← List.append_assoc, ← ht]
    | false => exact ⟨[], by rw [trimEnd_concat _ x hx, List.append_nil]⟩

theorem oneLine_trimEnd (s : FString) (h : OneLine s) : OneLine (FString.TrimEnd s) := by
  obtain ⟨t, ht⟩ := trimEnd_sublist s
  intro c hc
  apply h c
  rw [ht]
  exact List.mem_append_left _ hc

theorem strnicmpEq_append (a b p : FString) (h : FCString.StrnicmpEq a p = true) :
    FCString.StrnicmpEq (a ++ b) p = true := by
  induction p generalizing a with
  | nil => cases a <;> cases b <;> simp [FCString.StrnicmpEq]
  | cons d p ih =>
    cases a with
    | nil => simp [FCString.StrnicmpEq] at h
    | cons c a =>
      simp only [FCString.StrnicmpEq, Bool.and_eq_true] at h
      simp only [List.cons_append, FCString.StrnicmpEq, Bool.and_eq_true]
      exact ⟨h.1, ih a h.2⟩

/-- A line with the `data:` prefix, taken apart. -/
theorem startsWith_data_split (L : FString) (h : L.StartsWith (TEXT "data:") = true) :
    ∃ a z rest, L = (a ++ [z]) ++ rest ∧ a.length = 4 ∧ FChar.ToLower z = ':' := by
  rw [text_data_colon] at h
  rcases L with _ | ⟨c1, _ | ⟨c2, _ | ⟨c3, _ | ⟨c4, _ | ⟨c5, rest⟩⟩⟩⟩⟩ <;>
    simp [FString.StartsWith, FCString.StrnicmpEq] at h
  exact ⟨[c1, c2, c3, c4], c5, rest, by simp, rfl, h.2.2.2.2⟩

theorem startsWith_of_split (a : FString) (z : Char) (rest rest2 : FString)
    (h : FString.StartsWith ((a ++ [z]) ++ rest) (TEXT "data:") = true) (ha : a.length = 4) :
    FString.StartsWith ((a ++ [z]) ++ rest2) (TEXT "data:") = true := by
  rw [text_data_colon] at h ⊢
  rcases a with _ | ⟨c1, _ | ⟨c2, _ | ⟨c3, _ | ⟨c4, _ | ⟨c5, t⟩⟩⟩⟩⟩ <;> simp at ha
  simpa [FString.StartsWith, FCString.StrnicmpEq] using h

namespace UNpcDialogueComponent

/-- White space at the end of a line does not change what the line makes the component do. -/
theorem parseStreamingLine_trimEnd (E : Engine) (self : UNpcDialogueComponent) (L : FString) :
    ParseStreamingLine E self L = ParseStreamingLine E self L.TrimEnd := by
  cases hs : L.StartsWith (TEXT "data:") with
  | true =>
    obtain ⟨a, z, rest, hL, ha, hz⟩ := startsWith_data_split L hs
    have hzw : FChar.IsWhitespace z = false := by
      cases hw : FChar.IsWhitespace z with
      | false => rfl
      | true =>
        rw [toLower_of_whitespace z hw] at hz
        subst hz
        revert hw
        decide
    have hT : L.TrimEnd = (a ++ [z]) ++ FString.TrimEnd rest := by
      rw [hL]; exact trimEnd_append a rest z hzw
    have hs2 : FString.StartsWith L.TrimEnd (TEXT "data:") = true := by
      rw [hT]
      rw [hL] at hs
      exact startsWith_of_split a z rest _ hs ha
    have hd : ∀ r : FString, FString.RightChop ((a ++ [z]) ++ r) 5 = r := by
      intro r
      simp [FString.RightChop, List.drop_append_eq_append_drop, ha]
    have hj : (FString.RightChop L.TrimEnd 5).TrimStartAndEnd
        = (FString.RightChop L 5).TrimStartAndEnd := by
      rw [hT, hd]
      conv => rhs; rw [hL, hd]
      unfold FString.TrimStartAndEnd
      rw [trimEnd_trimEnd]
    unfold ParseStreamingLine
    rw [hs, hs2, hj]
  | false =>
    have hs2 : FString.StartsWith L.TrimEnd (TEXT "data:") = false := by
      cases h2 : FString.StartsWith L.TrimEnd (TEXT "data:") with
      | false => rfl
      | true =>
        obtain ⟨t, ht⟩ := trimEnd_sublist L
        have : FString.StartsWith L (TEXT "data:") = true := by
          rw [ht]
          simp only [FString.StartsWith, Bool.and_eq_true] at h2 ⊢
          exact ⟨h2.1, strnicmpEq_append _ _ _ h2.2⟩
        rw [hs] at this
        exact absurd this (by simp)
    unfold ParseStreamingLine
    rw [hs, hs2]
    simp

/-- A line that begins with white space has no `data:` prefix and is skipped. -/
theorem parseStreamingLine_leading_whitespace (E : Engine) (self : UNpcDialogueComponent)
    (w : Char) (t : FString) (hw : FChar.IsWhitespace w = true) :
    ParseStreamingLine E self (w :: t) = [] := by
  have hs : FString.StartsWith (w :: t) (TEXT "data:") = false := by
    rw [text_data_colon]
    have hne : w ≠ 'd' := by
      intro e; subst e; revert hw; decide
    have hd : FChar.ToLower 'd' = 'd' := by decide
    simp [FString.StartsWith, FCString.StrnicmpEq, toLower_of_whitespace w hw, hne, hd]
  unfold ParseStreamingLine
  rw [hs]
  simp

end UNpcDialogueComponent

/-- C9 (as stated, refuted). A line made of two spaces and a tab followed by a well-formed chunk
frame yields no event, whereas the same line with the white space removed yields its `Chunk`:
the line is not trimmed before the test for the `data:` prefix. -/
theorem C9_leading_whitespace_hides_frame :
    Delivered (UNpcDialogueComponent.ParseStreamingResponse Reference.Engine {}
        (TEXT "  \tdata: \x7b\"type\":\"chunk\",\"text\":\"hi\"\x7d")) = []
    ∧ FString.TrimStartAndEnd (TEXT "  \tdata: \x7b\"type\":\"chunk\",\"text\":\"hi\"\x7d")
        = TEXT "data: \x7b\"type\":\"chunk\",\"text\":\"hi\"\x7d"
    ∧ Delivered (UNpcDialogueComponent.ParseStreamingResponse Reference.Engine {}
        (FString.TrimStartAndEnd (TEXT "  \tdata: \x7b\"type\":\"chunk\",\"text\":\"hi\"\x7d")))
      = [StreamEvent.Chunk (TEXT "hi")] := by
  decide

/-- C9 (amended). The parser tests a line for the `data:` prefix as it stands and trims only the
payload behind the prefix. For every line `L`: the component does for `L` what it does for `L`
without its trailing white space, and a line that begins with a white-space character (spaces
or tabs before `data:`) yields nothing. -/
theorem C9_only_trailing_whitespace_is_ignored (E : Engine) (self : UNpcDialogueComponent)
    (L : FString) (hL : OneLine L) :
    UNpcDialogueComponent.ParseStreamingResponse E self L
        = UNpcDialogueComponent.ParseStreamingResponse E self L.TrimEnd
    ∧ (∀ w t, L = w :: t → FChar.IsWhitespace w = true →
        UNpcDialogueComponent.ParseStreamingResponse E self L = []) := by
  have h1 : UNpcDialogueComponent.ParseStreamingResponse E self L
      = UNpcDialogueComponent.ParseStreamingLine E self L := by
    have := UNpcDialogueComponent.parseStreamingResponse_line E self L [] hL (by simp)
    simpa using this
  have h2 : UNpcDialogueComponent.ParseStreamingResponse E self L.TrimEnd
      = UNpcDialogueComponent.ParseStreamingLine E self L.TrimEnd := by
    have := UNpcDialogueComponent.parseStreamingResponse_line E self L.TrimEnd []
      (oneLine_trimEnd L hL) (by simp)
    simpa using this
  refine ⟨?_, ?_⟩
  · rw [h1, h2]
    exact UNpcDialogueComponent.parseStreamingLine_trimEnd E self L
  · intro w t hwt hw
    rw [h1, hwt]
    exact UNpcDialogueComponent.parseStreamingLine_leading_whitespace E self w t hw

/-- C9 (amended), at a chunk line with trailing blanks and at the same line behind a tab. -/
theorem C9_only_trailing_whitespace_is_ignored_witness :
    OneLine (TEXT "data: \x7b\"type\":\"chunk\",\"text\":\"hi\"\x7d \t ")
    ∧ FString.TrimEnd (TEXT "data: \x7b\"type\":\"chunk\",\"text\":\"hi\"\x7d \t ")
        = TEXT "data: \x7b\"type\":\"chunk\",\"text\":\"hi\"\x7d"
    ∧ UNpcDialogueComponent.ParseStreamingResponse Reference.Engine {}
          (TEXT "data: \x7b\"type\":\"chunk\",\"text\":\"hi\"\x7d \t ")
        = UNpcDialogueComponent.ParseStreamingResponse Reference.Engine {}
          (FString.TrimEnd (TEXT "data: \x7b\"type\":\"chunk\",\"text\":\"hi\"\x7d \t "))
    ∧ OneLine ('\t' :: TEXT "data: \x7b\"type\":\"chunk\",\"text\":\"hi\"\x7d")
    ∧ UNpcDialogueComponent.ParseStreamingResponse Reference.Engine {}
          ('\t' :: TEXT "data: \x7b\"type\":\"chunk\",\"text\":\"hi\"\x7d") = [] :=
  ⟨by decide, by decide,
    (C9_only_trailing_whitespace_is_ignored Reference.Engine {}
      (TEXT "data: \x7b\"type\":\"chunk\",\"text\":\"hi\"\x7d \t ") (by decide)).1,
    by decide,
    (C9_only_trailing_whitespace_is_ignored Reference.Engine {}
      ('\t' :: TEXT "data: \x7b\"type\":\"chunk\",\"text\":\"hi\"\x7d") (by decide)).2
        '\t' (TEXT "data: \x7b\"type\":\"chunk\",\"text\":\"hi\"\x7d") rfl (by decide)⟩

/-! ## The single-shot decoders -/

theorem foldl_sources (E : Engine) (vs : List FJsonValue) (r : FNpcResponse) :
    vs.foldl (fun (Out : FNpcResponse) (Value : FJsonValue) =>
        { Out with Sources := Out.Sources ++ [Value.AsString E] }) r
      = { r with Sources := r.Sources ++ vs.map (fun v => v.AsString E) } := by
  induction vs generalizing r with
  | nil => simp
  | cons v t ih => simp [List.foldl_cons, ih]

theorem foldl_scores (E : Engine) (vs : List FJsonValue) (r : FNpcResponse) :
    vs.foldl (fun (Out : FNpcResponse) (Value : FJsonValue) =>
        { Out with Scores := Out.Scores ++ [E.NarrowToFloat (Value.AsNumber E)] }) r
      = { r with Scores := r.Scores ++ vs.map (fun v => E.NarrowToFloat (v.AsNumber E)) } := by
  induction vs generalizing r with
  | nil => simp
  | cons v t ih => simp [List.foldl_cons, ih]

theorem foldl_sources_lib (E : Engine) (vs : List FJsonValue) (r : FAskNpcResponse) :
    vs.foldl (fun (Out : FAskNpcResponse) (Value : FJsonValue) =>
        { Out with Sources := Out.Sources ++ [Value.AsString E] }) r
      = { r with Sources := r.Sources ++ vs.map (fun v => v.AsString E) } := by
  induction vs generalizing r with
  | nil => simp
  | cons v t ih => simp [List.foldl_cons, ih]

theorem foldl_scores_lib (E : Engine) (vs : List FJsonValue) (r : FAskNpcResponse) :
    vs.foldl (fun (Out : FAskNpcResponse) (Value : FJsonValue) =>
        { Out with Scores := Out.Scores ++ [E.NarrowToFloat (Value.AsNumber E)] }) r
      = { r with Scores := r.Scores ++ vs.map (fun v => E.NarrowToFloat (v.AsNumber E)) } := by
  induction vs generalizing r with
  | nil => simp
  | cons v t ih => simp [List.foldl_cons, ih]

/-- The function `ParseNpcResponse` on a body the reader decodes: the three scalar members are
overwritten, the two arrays are extended. -/
theorem parseNpcResponse_decoded (E : Engine) (Body : FString) (o : FJsonObject)
    (r : FNpcResponse) (h : E.Deserialize Body = some o) :
    UNpcDialogueComponent.ParseNpcResponse E Body r
      = { Answer := o.GetStringField E (TEXT "answer"),
          Sources := r.Sources ++ SourcesOf E o,
          Scores := r.Scores ++ ScoresOf E o,
          FromCloud := o.GetBoolField E (TEXT "fromCloud"),
          ResponseTimeMs := TruncToInt32 (o.GetNumberField E (TEXT "responseTimeMs")) } := by
  unfold UNpcDialogueComponent.ParseNpcResponse SourcesOf ScoresOf
  rw [h]
  cases h1 : o.TryGetArrayField (TEXT "sources") <;>
    cases h2 : o.TryGetArrayField (TEXT "scores") <;>
    simp [h1, h2, foldl_sources, foldl_scores]

/-- The function `ParseNpcResponse` on a body the reader rejects: the response is left as it was. -/
theorem parseNpcResponse_rejected (E : Engine) (Body : FString) (r : FNpcResponse)
    (h : E.Deserialize Body = none) :
    UNpcDialogueComponent.ParseNpcResponse E Body r = r := by
  unfold UNpcDialogueComponent.ParseNpcResponse
  rw [h]

/-- The decode block of the library on a body the reader decodes. -/
theorem decode_decoded (E : Engine) (Body : FString) (o : FJsonObject)
    (r : FAskNpcResponse) (h : E.Deserialize Body = some o) :
    UAskNpcLibrary.Decode E Body r
      = { Answer := o.GetStringField E (TEXT "answer"),
          Sources := r.Sources ++ SourcesOf E o,
          Scores := r.Scores ++ ScoresOf E o,
          bFromCloud := o.GetBoolField E (TEXT "fromCloud") } := by
  unfold UAskNpcLibrary.Decode SourcesOf ScoresOf
  rw [h]
  cases h1 : o.TryGetArrayField (TEXT "sources") <;>
    cases h2 : o.TryGetArrayField (TEXT "scores") <;>
    simp [h1, h2, foldl_sources_lib, foldl_scores_lib]

/-- The decode block of the library on a body the reader rejects. -/
theorem decode_rejected (E : Engine) (Body : FString) (r : FAskNpcResponse)
    (h : E.Deserialize Body = none) :
    UAskNpcLibrary.Decode E Body r = r := by
  unfold UAskNpcLibrary.Decode
  rw [h]

/-- The handler of the single-shot mode on a response of status 200: the body is decoded into
a default-constructed response, which is broadcast after the two log lines. -/
theorem onAskResponseReceived_200 (E : Engine) (self : UNpcDialogueComponent)
    (Response : FHttpResponse) (FromCloud0 : Bool) (ResponseTimeMs0 : Int)
    (h : Response.ResponseCode = 200) :
    ∃ Logs : List Effect, (∀ e ∈ Logs, ∃ v m, e = Effect.Log v m) ∧
      UNpcDialogueComponent.OnAskResponseReceived E self (some Response) true FromCloud0
          ResponseTimeMs0
        = Logs ++ [Effect.OnResponseReceived
            (UNpcDialogueComponent.ParseNpcResponse E Response.ContentAsString
              (FNpcResponse.Construct FromCloud0 ResponseTimeMs0))] := by
  unfold UNpcDialogueComponent.OnAskResponseReceived
  simp only [h, ne_eq, not_true_eq_false, if_false]
  cases self.bEnableLogging with
  | true => exact ⟨_, by simp, rfl⟩
  | false => exact ⟨[], by simp, rfl⟩

theorem errors_logs (Logs : List Effect) (h : ∀ e ∈ Logs, ∃ v m, e = Effect.Log v m) :
    Errors Logs = [] ∧ Answers Logs = [] ∧ Delivered Logs = [] := by
  induction Logs with
  | nil => exact ⟨rfl, rfl, rfl⟩
  | cons e t ih =>
    obtain ⟨v, m, rfl⟩ := h _ (List.mem_cons_self _ _)
    have := ih (fun x hx => h x (List.mem_cons_of_mem _ hx))
    simpa [Errors, Answers, Delivered] using this

/-! ## Claims on the single-shot mode -/

/-- C3. In single-shot mode a response whose status code is not 200 is a transport failure
carrying that code: the handler writes one error log line and raises exactly one error
notification, `Request failed: HTTP <code>`. Neither the body nor the JSON reader occurs in the
outcome (the body is not decoded), and no answer is delivered. Whatever the transport reports
about the transfer, one error is raised and no answer delivered. -/
theorem C3_non_200_is_transport_failure (E : Engine) (self : UNpcDialogueComponent)
    (Response : FHttpResponse) (FromCloud0 : Bool) (ResponseTimeMs0 : Int)
    (h : Response.ResponseCode ≠ 200) :
    UNpcDialogueComponent.OnAskResponseReceived E self (some Response) true FromCloud0
        ResponseTimeMs0
      = [Effect.Log ELogVerbosity.Error
          (TEXT "[GameRagKit] "
            ++ (TEXT "Request failed: HTTP " ++ FString.FromInt Response.ResponseCode)),
         Effect.OnError (TEXT "Request failed: HTTP " ++ FString.FromInt Response.ResponseCode)]
    ∧ Errors (UNpcDialogueComponent.OnAskResponseReceived E self (some Response) true FromCloud0
        ResponseTimeMs0)
      = [TEXT "Request failed: HTTP " ++ FString.FromInt Response.ResponseCode]
    ∧ (∀ bWasSuccessful : Bool,
        (Errors (UNpcDialogueComponent.OnAskResponseReceived E self (some Response)
          bWasSuccessful FromCloud0 ResponseTimeMs0)).length = 1
        ∧ Answers (UNpcDialogueComponent.OnAskResponseReceived E self (some Response)
          bWasSuccessful FromCloud0 ResponseTimeMs0) = []) := by
  have h1 : UNpcDialogueComponent.OnAskResponseReceived E self (some Response) true FromCloud0
        ResponseTimeMs0
      = [Effect.Log ELogVerbosity.Error
          (TEXT "[GameRagKit] "
            ++ (TEXT "Request failed: HTTP " ++ FString.FromInt Response.ResponseCode)),
         Effect.OnError (TEXT "Request failed: HTTP " ++ FString.FromInt Response.ResponseCode)] := by
    unfold UNpcDialogueComponent.OnAskResponseReceived
    simp [h]
  refine ⟨h1, by rw [h1]; rfl, ?_⟩
  intro b
  cases b with
  | true => rw [h1]; exact ⟨rfl, rfl⟩
  | false => exact ⟨rfl, rfl⟩

/-- C3, at status 500 with a body that would decode to an answer. -/
theorem C3_non_200_is_transport_failure_witness :
    (500 : Int) ≠ 200
    ∧ Errors (UNpcDialogueComponent.OnAskResponseReceived Reference.Engine {}
        (some ⟨500, TEXT "\x7b\"answer\":\"hi\",\"fromCloud\":false\x7d"⟩) true false 0)
      = [TEXT "Request failed: HTTP 500"]
    ∧ Answers (UNpcDialogueComponent.OnAskResponseReceived Reference.Engine {}
        (some ⟨500, TEXT "\x7b\"answer\":\"hi\",\"fromCloud\":false\x7d"⟩) true false 0) = [] :=
  ⟨by decide,
    (C3_non_200_is_transport_failure Reference.Engine {}
      ⟨500, TEXT "\x7b\"answer\":\"hi\",\"fromCloud\":false\x7d"⟩ false 0 (by decide)).2.1,
    ((C3_non_200_is_transport_failure Reference.Engine {}
      ⟨500, TEXT "\x7b\"answer\":\"hi\",\"fromCloud\":false\x7d"⟩ false 0 (by decide)).2.2
        true).2⟩

/-- C4 (as stated, refuted). For a response of status 200 whose body is not JSON, and for one
whose body is a JSON object without `answer`, no error is raised and an answer is delivered:
the default-constructed one in the first case, one with an empty answer string in the second. -/
theorem C4_malformed_body_still_delivers_answer :
    Errors (UNpcDialogueComponent.OnAskResponseReceived Reference.Engine {}
        (some ⟨200, TEXT "not json"⟩) true false 0) = []
    ∧ Answers (UNpcDialogueComponent.OnAskResponseReceived Reference.Engine {}
        (some ⟨200, TEXT "not json"⟩) true false 0)
      = [{ Answer := [], Sources := [], Scores := [], FromCloud := false, ResponseTimeMs := 0 }]
    ∧ Errors (UNpcDialogueComponent.OnAskResponseReceived Reference.Engine {}
        (some ⟨200, TEXT "\x7b\"fromCloud\":true\x7d"⟩) true false 0) = []
    ∧ Answers (UNpcDialogueComponent.OnAskResponseReceived Reference.Engine {}
        (some ⟨200, TEXT "\x7b\"fromCloud\":true\x7d"⟩) true false 0)
      = [{ Answer := [], Sources := [], Scores := [], FromCloud := true, ResponseTimeMs := 0 }] := by
  decide

/-- C4 (amended). In single-shot mode, for every response with status 200 and whatever its
body, no error is raised and exactly one answer is delivered: the result of decoding the body
into a default-constructed response. When the body is not a valid JSON object that answer has
an empty answer string, no sources and no scores; when it is a JSON object without `answer` the
answer string is empty, and without `fromCloud` the flag reads `false`. -/
theorem C4_status_200_always_delivers_answer (E : Engine) (self : UNpcDialogueComponent)
    (Response : FHttpResponse) (FromCloud0 : Bool) (ResponseTimeMs0 : Int)
    (h : Response.ResponseCode = 200) :
    Errors (UNpcDialogueComponent.OnAskResponseReceived E self (some Response) true FromCloud0
        ResponseTimeMs0) = []
    ∧ Answers (UNpcDialogueComponent.OnAskResponseReceived E self (some Response) true FromCloud0
        ResponseTimeMs0)
      = [UNpcDialogueComponent.ParseNpcResponse E Response.ContentAsString
          (FNpcResponse.Construct FromCloud0 ResponseTimeMs0)]
    ∧ (E.Deserialize Response.ContentAsString = none →
        (UNpcDialogueComponent.ParseNpcResponse E Response.ContentAsString
            (FNpcResponse.Construct FromCloud0 ResponseTimeMs0)).Answer = []
        ∧ (UNpcDialogueComponent.ParseNpcResponse E Response.ContentAsString
            (FNpcResponse.Construct FromCloud0 ResponseTimeMs0)).Sources = []
        ∧ (UNpcDialogueComponent.ParseNpcResponse E Response.ContentAsString
            (FNpcResponse.Construct FromCloud0 ResponseTimeMs0)).Scores = [])
    ∧ (∀ o, E.Deserialize Response.ContentAsString = some o →
        o.TryGetField (TEXT "answer") = none →
        (UNpcDialogueComponent.ParseNpcResponse E Response.ContentAsString
            (FNpcResponse.Construct FromCloud0 ResponseTimeMs0)).Answer = [])
    ∧ (∀ o, E.Deserialize Response.ContentAsString = some o →
        o.TryGetField (TEXT "fromCloud") = none →
        (UNpcDialogueComponent.ParseNpcResponse E Response.ContentAsString
            (FNpcResponse.Construct FromCloud0 ResponseTimeMs0)).FromCloud = false) := by
  obtain ⟨Logs, hLogs, hT⟩ :=
    onAskResponseReceived_200 E self Response FromCloud0 ResponseTimeMs0 h
  obtain ⟨hE, hA, _⟩ := errors_logs Logs hLogs
  refine ⟨?_, ?_, ?_, ?_, ?_⟩
  · rw [hT]
    have : Errors (Logs ++ [Effect.OnResponseReceived
        (UNpcDialogueComponent.ParseNpcResponse E Response.ContentAsString
          (FNpcResponse.Construct FromCloud0 ResponseTimeMs0))])
        = Errors Logs ++ [] := by
      simp [Errors, List.filterMap_append]
    rw [this, hE]; rfl
  · rw [hT]
    have : Answers (Logs ++ [Effect.OnResponseReceived
        (UNpcDialogueComponent.ParseNpcResponse E Response.ContentAsString
          (FNpcResponse.Construct FromCloud0 ResponseTimeMs0))])
        = Answers Logs ++ [UNpcDialogueComponent.ParseNpcResponse E Response.ContentAsString
          (FNpcResponse.Construct FromCloud0 ResponseTimeMs0)] := by
      simp [Answers, List.filterMap_append]
    rw [this, hA]; rfl
  · intro hnone
    rw [parseNpcResponse_rejected E _ _ hnone]
    exact ⟨rfl, rfl, rfl⟩
  · intro o ho hmiss
    rw [parseNpcResponse_decoded E _ o _ ho]
    simp [FJsonObject.GetStringField, FJsonObject.GetField, hmiss, FJsonValue.AsString]
  · intro o ho hmiss
    rw [parseNpcResponse_decoded E _ o _ ho]
    simp [FJsonObject.GetBoolField, FJsonObject.GetField, hmiss, FJsonValue.AsBool]

/-- C4 (amended), at status 200 with the body `not json`, which the reference reader rejects,
and with the body `{"fromCloud":true}`, an object without `answer`. -/
theorem C4_status_200_always_delivers_answer_witness :
    (200 : Int) = 200
    ∧ Reference.Engine.Deserialize (TEXT "not json") = none
    ∧ Errors (UNpcDialogueComponent.OnAskResponseReceived Reference.Engine {}
        (some ⟨200, TEXT "not json"⟩) true false 0) = []
    ∧ Answers (UNpcDialogueComponent.OnAskResponseReceived Reference.Engine {}
        (some ⟨200, TEXT "not json"⟩) true false 0)
      = [UNpcDialogueComponent.ParseNpcResponse Reference.Engine (TEXT "not json")
          (FNpcResponse.Construct false 0)]
    ∧ (UNpcDialogueComponent.ParseNpcResponse Reference.Engine (TEXT "not json")
          (FNpcResponse.Construct false 0)).Answer = []
    ∧ Reference.Engine.Deserialize (TEXT "\x7b\"fromCloud\":true\x7d")
        = some ⟨[(TEXT "fromCloud", FJsonValue.JsonBoolean true)]⟩
    ∧ (UNpcDialogueComponent.ParseNpcResponse Reference.Engine
          (TEXT "\x7b\"fromCloud\":true\x7d") (FNpcResponse.Construct false 0)).Answer = [] :=
  ⟨rfl, rfl,
    (C4_status_200_always_delivers_answer Reference.Engine {} ⟨200, TEXT "not json"⟩ false 0
      rfl).1,
    (C4_status_200_always_delivers_answer Reference.Engine {} ⟨200, TEXT "not json"⟩ false 0
      rfl).2.1,
    ((C4_status_200_always_delivers_answer Reference.Engine {} ⟨200, TEXT "not json"⟩ false 0
      rfl).2.2.1 rfl).1,
    rfl,
    (C4_status_200_always_delivers_answer Reference.Engine {}
      ⟨200, TEXT "\x7b\"fromCloud\":true\x7d"⟩ false 0 rfl).2.2.2.1
        ⟨[(TEXT "fromCloud", FJsonValue.JsonBoolean true)]⟩ rfl rfl⟩

/-- C5. For every body that the reader decodes to a JSON object with a string `answer` and a
boolean `fromCloud` and without `sources`, `scores` and `responseTimeMs`, decoding it into
a default-constructed response gives that answer and that flag, with `sources = []`,
`scores = []` and `responseTimeMs = 0`. -/
theorem C5_decode_defaults (E : Engine) (Body : FString) (o : FJsonObject)
    (answer : FString) (fromCloud : Bool) (FromCloud0 : Bool) (ResponseTimeMs0 : Int)
    (hbody : E.Deserialize Body = some o)
    (hanswer : o.TryGetField (TEXT "answer") = some (FJsonValue.JsonString answer))
    (hcloud : o.TryGetField (TEXT "fromCloud") = some (FJsonValue.JsonBoolean fromCloud))
    (hsources : o.TryGetField (TEXT "sources") = none)
    (hscores : o.TryGetField (TEXT "scores") = none)
    (htime : o.TryGetField (TEXT "responseTimeMs") = none) :
    UNpcDialogueComponent.ParseNpcResponse E Body
        (FNpcResponse.Construct FromCloud0 ResponseTimeMs0)
      = { Answer := answer, Sources := [], Scores := [], FromCloud := fromCloud,
          ResponseTimeMs := 0 } := by
  have ht : TruncToInt32 0 = 0 := by decide
  rw [parseNpcResponse_decoded E Body o _ hbody]
  simp [SourcesOf, ScoresOf, FJsonObject.TryGetArrayField, FJsonObject.GetStringField,
    FJsonObject.GetBoolField, FJsonObject.GetNumberField, FJsonObject.GetField, hanswer, hcloud,
    hsources, hscores, htime, FJsonValue.AsString, FJsonValue.AsBool, FJsonValue.AsNumber,
    FNpcResponse.Construct, ht]

/-- C5, at the body `{"answer":"hi","fromCloud":false}` with the reference reader, decoded
into a response whose uninitialised members held `true` and `-7`. -/
theorem C5_decode_defaults_witness :
    Reference.Engine.Deserialize (TEXT "\x7b\"answer\":\"hi\",\"fromCloud\":false\x7d")
      = some ⟨[(TEXT "answer", FJsonValue.JsonString (TEXT "hi")),
               (TEXT "fromCloud", FJsonValue.JsonBoolean false)]⟩
    ∧ UNpcDialogueComponent.ParseNpcResponse Reference.Engine
        (TEXT "\x7b\"answer\":\"hi\",\"fromCloud\":false\x7d") (FNpcResponse.Construct true (-7))
      = { Answer := TEXT "hi", Sources := [], Scores := [], FromCloud := false,
          ResponseTimeMs := 0 } :=
  ⟨rfl,
    C5_decode_defaults Reference.Engine (TEXT "\x7b\"answer\":\"hi\",\"fromCloud\":false\x7d")
      ⟨[(TEXT "answer", FJsonValue.JsonString (TEXT "hi")),
        (TEXT "fromCloud", FJsonValue.JsonBoolean false)]⟩
      (TEXT "hi") false true (-7) rfl rfl rfl rfl rfl rfl⟩

/-! ## Claims on the streaming handler, the ask calls and the two decoders -/

/-- The streaming handler never reads the status code: a valid response of a successful
transfer is parsed whatever its status. -/
theorem onStreamResponseReceived_ignores_status (E : Engine) (self : UNpcDialogueComponent)
    (Response : FHttpResponse) :
    UNpcDialogueComponent.OnStreamResponseReceived E self (some Response) true
      = UNpcDialogueComponent.ParseStreamingResponse E self Response.ContentAsString := rfl

/-- C7 (the code at the failing input). A streaming response with status 500 whose body holds
a chunk frame: the handler raises no error and broadcasts the chunk, whereas the single-shot
handler, given the same response, raises the error `Request failed: HTTP 500` and delivers
nothing. A failed transfer does raise the streaming error and no chunk. -/
theorem C7_streaming_non_200_is_parsed :
    UNpcDialogueComponent.OnStreamResponseReceived Reference.Engine {}
        (some ⟨500, TEXT "data: \x7b\"type\":\"chunk\",\"text\":\"oops\"\x7d\n\n"⟩) true
      = [Effect.OnTextChunkReceived (TEXT "oops")]
    ∧ Errors (UNpcDialogueComponent.OnAskResponseReceived Reference.Engine {}
        (some ⟨500, TEXT "data: \x7b\"type\":\"chunk\",\"text\":\"oops\"\x7d\n\n"⟩) true false 0)
      = [TEXT "Request failed: HTTP 500"]
    ∧ UNpcDialogueComponent.OnStreamResponseReceived Reference.Engine {}
        (some ⟨500, TEXT "data: \x7b\"type\":\"chunk\",\"text\":\"oops\"\x7d\n\n"⟩) false
      = [Effect.OnError (TEXT "Streaming request failed")] := by
  decide

/-- C8 (as stated, refuted). `AskNpc` and `AskNpcStreaming` called with an empty `npc` and an
empty `question` raise no error and hand one request to the transport. -/
theorem C8_empty_question_is_dispatched :
    Errors (UNpcDialogueComponent.AskNpc Reference.Engine {} [] [] (mkRat 3 10)) = []
    ∧ (Requests (UNpcDialogueComponent.AskNpc Reference.Engine {} [] [] (mkRat 3 10))).map
        (fun r => (r.Verb, r.URL, r.Content))
      = [(TEXT "POST", TEXT "http://localhost:5280/ask",
          TEXT "\x7b\"npc\":\"\",\"question\":\"\",\"importance\":0.3\x7d")]
    ∧ Errors (UNpcDialogueComponent.AskNpcStreaming Reference.Engine {} [] [] (mkRat 3 10)) = []
    ∧ (Requests (UNpcDialogueComponent.AskNpcStreaming Reference.Engine {} [] [] (mkRat 3 10))).map
        (fun r => (r.Verb, r.URL, r.Content))
      = [(TEXT "POST", TEXT "http://localhost:5280/ask/stream",
          TEXT "\x7b\"npc\":\"\",\"question\":\"\",\"importance\":0.3\x7d")] := by
  decide

/-- C8 (amended). `AskNpc` and `AskNpcStreaming` do not validate their arguments: for every
`npc` and `question`, empty or not, the call raises no error and hands exactly one request to
the transport, a `POST` to `/ask` (`/ask/stream`) whose content is the serialised object with
`npc`, `question` and `importance`, bound to the handler of its mode. -/
theorem C8_ask_always_dispatches (E : Engine) (self : UNpcDialogueComponent)
    (NpcId Question : FString) (Importance : Rat) :
    Errors (UNpcDialogueComponent.AskNpc E self NpcId Question Importance) = []
    ∧ (Requests (UNpcDialogueComponent.AskNpc E self NpcId Question Importance)).map
        (fun r => (r.Verb, r.URL, r.Content, r.OnProcessRequestComplete))
      = [(TEXT "POST", self.ServerUrl ++ TEXT "/ask",
          E.Serialize (UNpcDialogueComponent.BuildBody NpcId Question Importance),
          ECompleteHandler.OnAskResponseReceived)]
    ∧ Errors (UNpcDialogueComponent.AskNpcStreaming E self NpcId Question Importance) = []
    ∧ (Requests (UNpcDialogueComponent.AskNpcStreaming E self NpcId Question Importance)).map
        (fun r => (r.Verb, r.URL, r.Content, r.OnProcessRequestComplete))
      = [(TEXT "POST", self.ServerUrl ++ TEXT "/ask/stream",
          E.Serialize (UNpcDialogueComponent.BuildBody NpcId Question Importance),
          ECompleteHandler.OnStreamResponseReceived)] := by
  unfold UNpcDialogueComponent.AskNpc UNpcDialogueComponent.AskNpcStreaming
  cases self.bEnableLogging <;> cases self.ApiKey.IsEmpty <;>
    simp [Errors, Requests, FHttpRequest.SetHeader, FHttpRequest.CreateRequest]

/-- The two decoders on every body: the same answer, sources and scores; and the same
`fromCloud` whenever the reader decodes the body. -/
theorem decoders_agree (E : Engine) (Body : FString) (FromCloud0 : Bool)
    (ResponseTimeMs0 : Int) :
    (UAskNpcLibrary.Decode E Body FAskNpcResponse.Construct).Answer
        = (UNpcDialogueComponent.ParseNpcResponse E Body
            (FNpcResponse.Construct FromCloud0 ResponseTimeMs0)).Answer
    ∧ (UAskNpcLibrary.Decode E Body FAskNpcResponse.Construct).Sources
        = (UNpcDialogueComponent.ParseNpcResponse E Body
            (FNpcResponse.Construct FromCloud0 ResponseTimeMs0)).Sources
    ∧ (UAskNpcLibrary.Decode E Body FAskNpcResponse.Construct).Scores
        = (UNpcDialogueComponent.ParseNpcResponse E Body
            (FNpcResponse.Construct FromCloud0 ResponseTimeMs0)).Scores
    ∧ ((E.Deserialize Body).isSome = true →
        (UAskNpcLibrary.Decode E Body FAskNpcResponse.Construct).bFromCloud
          = (UNpcDialogueComponent.ParseNpcResponse E Body
              (FNpcResponse.Construct FromCloud0 ResponseTimeMs0)).FromCloud) := by
  cases h : E.Deserialize Body with
  | none =>
    rw [decode_rejected E Body _ h, parseNpcResponse_rejected E Body _ h]
    exact ⟨rfl, rfl, rfl, by simp⟩
  | some o =>
    rw [decode_decoded E Body o _ h, parseNpcResponse_decoded E Body o _ h]
    exact ⟨rfl, rfl, rfl, fun _ => rfl⟩

/-- C10 (the code at the failing input). On the body `not json` of a status-200 response the
library leaves `bFromCloud` at its initialiser `false`; `ParseNpcResponse` leaves `FromCloud`
as the default-constructed response holds it, and the struct gives that member no initialiser:
when the storage held `true`, the two decoders disagree on `fromCloud`. -/
theorem C10_decoders_disagree_on_rejected_body :
    (UAskNpcLibrary.AskNpc Reference.Engine (fun _ => some ⟨200, TEXT "not json"⟩)
        (TEXT "guard") (TEXT "hello") FAskNpcResponse.Construct).bFromCloud = false
    ∧ (UNpcDialogueComponent.ParseNpcResponse Reference.Engine (TEXT "not json")
        (FNpcResponse.Construct true 0)).FromCloud = true
    ∧ Answers (UNpcDialogueComponent.OnAskResponseReceived Reference.Engine {}
        (some ⟨200, TEXT "not json"⟩) true true 0)
      = [{ Answer := [], Sources := [], Scores := [], FromCloud := true, ResponseTimeMs := 0 }] := by
  decide

end GameRagKit
